import Mathlib

/-!
# go-google: token issuance, validation and access gates

A shallow embedding of `services/auth_services.go` (`generateTokens`, `RefreshToken`,
`ProcessGoogleCallback`), `middleware/auth.go` (`AuthMiddleware`, `RoleMiddleware`,
`PermissionMiddleware`), the admin routes of `main.go`, and the parts of `models/` and
`repository/` they use.

Conventions of the embedding.

* Instants are integers counting nanoseconds since the Unix epoch; every `time.Now()` of the
  source is a separate clock read and is passed in explicitly.
* A Go `[]string` is an `Option (List String)`: `none` is the nil slice, which `encoding/json`
  marshals as `null`, while a non-nil slice marshals as an array.
* A token string is represented by what `jwt.Parse` decodes from it: the `alg` header, the
  claims object and the signature. The MAC itself is a parameter `mac alg key claims`.
* The library `github.com/golang-jwt/jwt/v5` is not part of the repository; it is modelled
  from its behaviour: `Parse` without options looks the `alg` header up in the registry of
  signing methods, calls the key function, verifies the signature with the method the header
  names, and then validates `exp` and `nbf` (no leeway, `iat` not checked). On map claims a
  numeric date equal to zero counts as not set, and a date is cut to whole seconds.
* A JSON number carries the value written in the text, an exact rational. The decoder turns it
  into the nearest `float64` (ties to even); this rounding, the conversions to `int64` and the
  wrap-around of `time.Time` are applied where the library reads the number
  (`parseNumericDate`). A text with a number too large for a `float64` does not decode.
* The database behind `gorm` is a `Store`: the users, each with its direct roles and its groups
  with their roles, and the table of roles. A lookup returns the nested lists that its
  `Preload` calls name. `db.Save` overwrites the columns of the record and adds missing links
  without removing or rewriting any. Which calls of a login fail is an input (`Faults`).
* A gin handler either aborts with a status, calls `c.Next()`, or panics; on the routes a panic
  is answered 500 by the recovery middleware of `gin.Default()`.
-/

namespace GoGoogle

/-! ## Data model (`models/`) -/

/-- Role of `models/role.go`: the name and the permission strings. -/
structure Role where
  Name : String
  Permissions : List String
  deriving DecidableEq, Repr

/-- Group of `models/group.go`: the name and the roles loaded with it. -/
structure Group where
  Name : String
  Roles : List Role
  deriving DecidableEq, Repr

/-- User of `models/user.go`. `ID` holds `user.ID.String()`, the text form of the UUID. -/
structure User where
  ID : String
  Email : String
  Name : String
  Picture : String
  GoogleID : String
  Groups : List Group
  Roles : List Role
  deriving DecidableEq, Repr

/-! ## JSON values and claims -/

/-- A JSON value of the claims object. A number is kept as written; `float64` gives the value
that `encoding/json` stores for it in an `interface{}`. -/
inductive JSON where
  | null
  | bool (b : Bool)
  | num (q : ℚ)
  | str (s : String)
  | arr (xs : List JSON)
  | obj (kvs : List (String × JSON))

/-- The claims object `jwt.MapClaims`, as a list of entries; `List.lookup` reads a key. -/
abbrev MapClaims := List (String × JSON)

/-- Marshalling of a Go `[]string`: the nil slice becomes `null`, any other an array of
strings. -/
def marshalStrings : Option (List String) → JSON
  | none => JSON.null
  | some xs => JSON.arr (xs.map JSON.str)

/-- The strings held by a claim value: the string elements of an array, nothing otherwise. -/
def stringsOf : Option JSON → List String
  | some (JSON.arr xs) => xs.filterMap (fun x => match x with
      | JSON.str s => some s
      | _ => none)
  | _ => []

/-- A decoded token: header algorithm, claims and signature. -/
structure Token where
  alg : String
  claims : MapClaims
  signature : Nat

/-- The keyed MAC: algorithm name, key, and the claims being signed. -/
abbrev Mac := String → String → MapClaims → Nat

/-! ## Clock -/

/-- The five `time.Now()` reads of `generateTokens`, in program order
(lines 296, 297, 298, 347, 361). -/
structure ClockReads where
  atAccessExpiry : Int
  atRefreshExpiry : Int
  atExpiresIn : Int
  atAccessIat : Int
  atRefreshIat : Int

/-- Nanoseconds per second (`time.Second`). -/
def Second : Int := 1000000000

/-- The method `Time.Unix`: whole seconds since the epoch (rounded down). -/
def Unix (t : Int) : Int := t / Second

/-- The method `Duration.Seconds` followed by the `int64` conversion: truncation toward zero. -/
def truncSeconds (d : Int) : Int := Int.tdiv d Second

/-! ## `generateTokens`: collecting and deduplicating (lines 300-337) -/

/-- The built-in `append` on a possibly nil slice. -/
def goAppend : Option (List String) → String → Option (List String)
  | none, x => some [x]
  | some xs, x => some (xs ++ [x])

/-- Body of the loops at lines 305-308 and 312-315: append the name to `roles` and the
permissions to `permissions`. -/
def collectRole (acc : List String × List String) (role : Role) : List String × List String :=
  (acc.1 ++ [role.Name], acc.2 ++ role.Permissions)

/-- Lines 301-316: the `roles` and `permissions` slices after the direct roles and then the
roles of every group have been walked. -/
def collect (user : User) : List String × List String :=
  user.Groups.foldl (fun acc group => group.Roles.foldl collectRole acc)
    (user.Roles.foldl collectRole ([], []))

/-- Body of the loops at lines 325-330 and 332-337. The `map[string]bool` is a function that
answers `false` for a key never written. -/
def uniqueStep (st : (String → Bool) × Option (List String)) (x : String) :
    (String → Bool) × Option (List String) :=
  if !st.1 x then (fun k => if k = x then true else st.1 k, goAppend st.2 x) else st

/-- Lines 319-337: the final slice, starting from an empty map and a nil slice. -/
def unique (xs : List String) : Option (List String) :=
  (xs.foldl uniqueStep (fun _ => false, none)).2

/-- The slice `finalRoles` of line 322 after the loop of line 325. -/
def finalRoles (user : User) : Option (List String) := unique (collect user).1

/-- The slice `finalPermissions` of line 323 after the loop of line 332. -/
def finalPermissions (user : User) : Option (List String) := unique (collect user).2

/-- Lines 340-349: the claims of the access token. -/
def accessClaims (clock : ClockReads) (user : User) : MapClaims :=
  [("sub", JSON.str user.ID),
   ("email", JSON.str user.Email),
   ("name", JSON.str user.Name),
   ("roles", marshalStrings (finalRoles user)),
   ("permissions", marshalStrings (finalPermissions user)),
   ("exp", JSON.num (Unix (clock.atAccessExpiry + 15 * 60 * Second))),
   ("iat", JSON.num (Unix clock.atAccessIat)),
   ("type", JSON.str "access")]

/-- Lines 358-363: the claims of the refresh token. -/
def refreshClaims (clock : ClockReads) (user : User) : MapClaims :=
  [("sub", JSON.str user.ID),
   ("exp", JSON.num (Unix (clock.atRefreshExpiry + 7 * 24 * 3600 * Second))),
   ("iat", JSON.num (Unix clock.atRefreshIat)),
   ("type", JSON.str "refresh")]

/-- The calls `jwt.NewWithClaims(jwt.SigningMethodHS256, claims).SignedString(key)`: HMAC signing
accepts every byte string as key, the empty one included, and fails only on a key that is not
a byte string, which cannot happen here. -/
def SignedString (mac : Mac) (claims : MapClaims) (key : String) : Except String Token :=
  Except.ok { alg := "HS256", claims := claims, signature := mac "HS256" key claims }

/-- Function `generateTokens` (lines 294-372): access token, refresh token and `expiresIn`. -/
def generateTokens (mac : Mac) (JWTSecret : String) (clock : ClockReads) (user : User) :
    Except String (Token × Token × Int) :=
  let expiresIn := truncSeconds (clock.atAccessExpiry + 15 * 60 * Second - clock.atExpiresIn)
  match SignedString mac (accessClaims clock user) JWTSecret with
  | Except.error err => Except.error err
  | Except.ok accessToken =>
    match SignedString mac (refreshClaims clock user) JWTSecret with
    | Except.error err => Except.error err
    | Except.ok refreshToken => Except.ok (accessToken, refreshToken, expiresIn)

/-! ## Numbers: `float64`, `int64` and the seconds of a `time.Time` -/

/-- Number of binary digits of `n` (0 for 0), found in at most `fuel` halvings. -/
def bitLen : Nat → Nat → Nat
  | 0, _ => 0
  | fuel + 1, n => if n = 0 then 0 else bitLen fuel (n / 2) + 1

/-- The binary exponent of the fraction `n / d`, non-zero: the `e` with
`2 ^ e ≤ |n / d| < 2 ^ (e + 1)`. The difference of the bit lengths is either `e` or `e + 1`. -/
def binade (n : Int) (d : Nat) : Int :=
  let e : Int := (bitLen n.natAbs n.natAbs : Int) - (bitLen d d : Int)
  if n.natAbs * 2 ^ (-e).toNat < d * 2 ^ e.toNat then e - 1 else e

/-- The integer nearest to the fraction `n / d`, `d > 0`; a tie goes to the even one. -/
def roundHalfEven (n : Int) (d : Nat) : Int :=
  if 2 * (n % d) < d then n / d
  else if (d : Int) < 2 * (n % d) then n / d + 1
  else if n / d % 2 = 0 then n / d else n / d + 1

/-- The exponent of the unit in the last place of the `float64` nearest to `n / d`: 52 below
the binary exponent, which is not taken below -1022 (subnormal numbers). -/
def ulpExponent (n : Int) (d : Nat) : Int := max (binade n d) (-1022) - 52

/-- The fraction `n / d` in units of the last place, rounded to the nearest integer. -/
def mantissa (n : Int) (d : Nat) : Int :=
  roundHalfEven (n * 2 ^ (-ulpExponent n d).toNat) (d * 2 ^ (ulpExponent n d).toNat)

/-- The `float64` nearest to the fraction `n / d`, ties to even, as an exact rational: the
rounding of the IEEE 754 arithmetic and of `strconv.ParseFloat`. -/
def roundFloat64 (n : Int) (d : Nat) : ℚ :=
  mkRat (mantissa n d * 2 ^ (ulpExponent n d).toNat) (2 ^ (-ulpExponent n d).toNat)

/-- The `float64` that `encoding/json` decodes the number `q` to; `none` when the nearest
`float64` is not finite (magnitude `2 ^ 1024` or more), which makes the decoder fail. -/
def float64 (q : ℚ) : Option ℚ :=
  if (bitLen (mantissa q.num q.den).natAbs (mantissa q.num q.den).natAbs : Int)
      + ulpExponent q.num q.den ≤ 1024 then some (roundFloat64 q.num q.den)
  else none

/-- The integer part that `math.Modf` returns: rounding toward zero. -/
def truncate (f : ℚ) : Int := Int.tdiv f.num f.den

/-- The conversion `int64(x)` of a `float64` without fraction. Outside the range of `int64`
the language leaves the result to the implementation; the value on amd64, the smallest
`int64`, is taken. -/
def int64 (n : Int) : Int := if -(2 ^ 63) ≤ n ∧ n < 2 ^ 63 then n else -(2 ^ 63)

/-- The wrap-around of `int64` addition. -/
def wrap64 (n : Int) : Int := (n + 2 ^ 63) % 2 ^ 64 - 2 ^ 63

/-- Constant `unixToInternal` of package `time`: the seconds from year 1, where the seconds of
a `time.Time` start, to 1970. -/
def unixToInternal : Int := 62135596800

/-- The library's `newNumericDateFromSeconds(f)`, that is
`NewNumericDate(time.Unix(int64(round), int64(frac*1e9)))` with `round, frac := math.Modf(f)`,
as the Unix second at which the resulting time compares. The product `frac*1e9` is rounded to
a `float64`; `time.Unix` carries the nanoseconds into the seconds and stores the seconds
counted from year 1, both in `int64`; `NewNumericDate` drops the nanoseconds
(`Truncate(time.Second)`). -/
def newNumericDateFromSeconds (f : ℚ) : Int :=
  let sec := int64 (truncate f)
  let nsec := int64 (truncate (roundFloat64 ((f.num - truncate f * f.den) * 1000000000) f.den))
  wrap64 (wrap64 (sec + nsec / 1000000000) + unixToInternal) - unixToInternal

/-! ## The JWT library: registry, key function, verification, claims validation -/

/-- A token string as `jwt.Parse` sees it: either it does not decode (wrong segment count,
bad base64 or JSON, a number too large for a `float64`, no `alg` header), or it decodes to a
token. -/
inductive TokenString where
  | malformed
  | encoded (t : Token)

/-- The families of signing methods registered by the library; `token.Method` is one of them. -/
inductive SigningMethod where
  | HMAC (alg : String)
  | RSA (alg : String)
  | RSAPSS (alg : String)
  | ECDSA (alg : String)
  | Ed25519
  | Unsecured
  deriving DecidableEq, Repr

/-- The registry lookup `jwt.GetSigningMethod`: `none` for a name that is not registered. -/
def GetSigningMethod (alg : String) : Option SigningMethod :=
  if alg ∈ ["HS256", "HS384", "HS512"] then some (SigningMethod.HMAC alg)
  else if alg ∈ ["RS256", "RS384", "RS512"] then some (SigningMethod.RSA alg)
  else if alg ∈ ["PS256", "PS384", "PS512"] then some (SigningMethod.RSAPSS alg)
  else if alg ∈ ["ES256", "ES384", "ES512"] then some (SigningMethod.ECDSA alg)
  else if alg = "EdDSA" then some SigningMethod.Ed25519
  else if alg = "none" then some SigningMethod.Unsecured
  else none

/-- The key function passed to `jwt.Parse` at both validation sites
(`middleware/auth.go` lines 23-28, `auth_services.go` lines 199-204): the type assertion
`token.Method.(*jwt.SigningMethodHMAC)` and then the secret as key. -/
def keyFunc (secret : String) (method : SigningMethod) : Except String String :=
  match method with
  | SigningMethod.HMAC _ => Except.ok secret
  | _ => Except.error "método de assinatura inválido"

/-- The method `Verify` with a byte-string key: an HMAC method recomputes the MAC with its own
hash and compares; every other method refuses a byte-string key. -/
def verifySignature (mac : Mac) (method : SigningMethod) (t : Token) (key : String) : Bool :=
  match method with
  | SigningMethod.HMAC alg => decide (t.signature = mac alg key t.claims)
  | _ => false

/-- The library's `MapClaims.parseNumericDate`, on the number as decoded: an absent key means
"not set", and so does a `float64` equal to zero (`case float64: if exp == 0` returns no
date); another `float64` goes through `newNumericDateFromSeconds`; any other value is an
error. A number that has no finite `float64` never reaches the library, the token failing to
decode; it is refused here. -/
def parseNumericDate (claims : MapClaims) (key : String) : Except String (Option Int) :=
  match claims.lookup key with
  | none => Except.ok none
  | some (JSON.num q) =>
    match float64 q with
    | none => Except.error "could not JSON decode claim"
    | some f => if f = 0 then Except.ok none else Except.ok (some (newNumericDateFromSeconds f))
  | some _ => Except.error (key ++ " is invalid")

/-- The default claims validator at instant `now`: `exp`, when set, must be strictly in the
future, and `nbf`, when set, must not be in the future. -/
def validateClaims (claims : MapClaims) (now : Int) : Except String Unit :=
  match parseNumericDate claims "exp" with
  | Except.error err => Except.error err
  | Except.ok exp =>
    if (match exp with
        | some e => decide (now < e * Second)
        | none => true) then
      match parseNumericDate claims "nbf" with
      | Except.error err => Except.error err
      | Except.ok nbf =>
        if (match nbf with
            | some n => decide (¬ now < n * Second)
            | none => true) then Except.ok ()
        else Except.error "token is not valid yet"
    else Except.error "token is expired"

/-- The call `jwt.Parse(tokenString, keyFunc)` at instant `now` with the key function of the
source; `Except.ok claims` stands for `err == nil && token.Valid`. -/
def Parse (mac : Mac) (secret : String) (now : Int) (tokenString : TokenString) :
    Except String MapClaims :=
  match tokenString with
  | TokenString.malformed => Except.error "token is malformed"
  | TokenString.encoded t =>
    match GetSigningMethod t.alg with
    | none => Except.error "signing method (alg) is unavailable"
    | some method =>
      match keyFunc secret method with
      | Except.error err => Except.error err
      | Except.ok key =>
        if verifySignature mac method t key then
          match validateClaims t.claims now with
          | Except.error err => Except.error err
          | Except.ok _ => Except.ok t.claims
        else Except.error "signature is invalid"

/-! ## `AuthMiddleware` (`middleware/auth.go`) -/

/-- The keys that `AuthMiddleware` sets on the request context; `none` is a key never set. -/
structure Context where
  userID : Option String
  roles : Option (List String)
  permissions : Option (List String)
  deriving DecidableEq, Repr

/-- How a handler leaves the request: a JSON error response followed by `c.Abort()`, the call
`c.Next()` with the context it built, or a run-time panic. -/
inductive Outcome where
  | abort (status : Nat) (error : String)
  | next (ctx : Context)
  | panic
  deriving DecidableEq, Repr

/-- The loops at lines 57-59 and 66-68: the unchecked assertion `role.(string)` on each
element; `none` is the panic of a failed assertion. -/
def assertStrings : List JSON → Option (List String)
  | [] => some []
  | JSON.str s :: rest =>
    match assertStrings rest with
    | some l => some (s :: l)
    | none => none
  | _ :: _ => none

/-- Lines 55-61 and 64-70: when the claim is a JSON array the list is stored (`some (some l)`)
unless an element is not a string (`none`, panic); otherwise the key stays unset. -/
def extractList (v : Option JSON) : Option (Option (List String)) :=
  match v with
  | some (JSON.arr xs) =>
    match assertStrings xs with
    | some l => some (some l)
    | none => none
  | _ => some none

/-- Function `AuthMiddleware(secretKey)` applied to a request. `authHeader` is `none` for an
empty Authorization header and otherwise what the header text decodes to once the first
"Bearer " is removed. -/
def AuthMiddleware (mac : Mac) (secretKey : String) (now : Int)
    (authHeader : Option TokenString) : Outcome :=
  match authHeader with
  | none => Outcome.abort 401 "Token de autenticação ausente"
  | some tokenString =>
    match Parse mac secretKey now tokenString with
    | Except.error _ => Outcome.abort 401 "Token inválido"
    | Except.ok claims =>
      match claims.lookup "sub" with
      | some (JSON.str userID) =>
        match extractList (claims.lookup "roles") with
        | none => Outcome.panic
        | some roles =>
          match extractList (claims.lookup "permissions") with
          | none => Outcome.panic
          | some permissions =>
            Outcome.next { userID := some userID, roles := roles, permissions := permissions }
      | _ => Outcome.abort 500 "ID de usuário inválido no token"

/-! ## `RefreshToken` (`services/auth_services.go`) -/

/-- The stored users, each with its groups, their roles and its direct roles, and the table of
roles. -/
structure Store where
  users : List User
  roles : List Role := []

/-- The method `UserRepository.FindByID`: the user with that id, fully loaded, or an error. -/
def FindByID (store : Store) (id : String) : Except String User :=
  match store.users.find? (fun u => decide (u.ID = id)) with
  | some user => Except.ok user
  | none => Except.error "record not found"

/-- The order in which a `range` over a Go map yields its keys: unspecified, hence any
rearrangement of them. -/
structure MapOrder where
  iter : List String → List String
  perm : ∀ ks, List.Perm (iter ks) ks

/-- The assignment `m[k] = true` on a `map[string]bool`, kept as its list of keys. -/
def mapSet (m : List String) (k : String) : List String :=
  if k ∈ m then m else m ++ [k]

/-- Body of the loops at lines 260-265 and 268-275: mark the role name and its permissions. -/
def markRole (acc : List String × List String) (role : Role) : List String × List String :=
  (mapSet acc.1 role.Name, role.Permissions.foldl mapSet acc.2)

/-- Lines 256-275: `roleMap` and `permMap` after the direct roles and the group roles. -/
def markAll (user : User) : List String × List String :=
  user.Groups.foldl (fun acc group => group.Roles.foldl markRole acc)
    (user.Roles.foldl markRole ([], []))

/-- Struct `models.UserResponse`. -/
structure UserResponse where
  ID : String
  Email : String
  Name : String
  Picture : String
  Groups : List String
  Roles : List String
  Permissions : List String
  deriving DecidableEq, Repr

/-- Lines 240-283: the user summary. -/
def userResponse (order : MapOrder) (user : User) : UserResponse :=
  { ID := user.ID, Email := user.Email, Name := user.Name, Picture := user.Picture,
    Groups := user.Groups.map (fun group => group.Name),
    Roles := order.iter (markAll user).1,
    Permissions := order.iter (markAll user).2 }

/-- Struct `models.UserWithToken`. -/
structure UserWithToken where
  User : UserResponse
  AccessToken : Token
  RefreshToken : Token
  ExpiresIn : Int

/-- The calls `RefreshToken` makes to its collaborators, in order. -/
inductive Call where
  | findByID (id : String)
  | generateTokens (userID : String)
  deriving DecidableEq, Repr

/-- Result of `RefreshToken`: the calls made and the returned pair `(result, err)`. -/
structure RefreshResult where
  calls : List Call
  result : Except String UserWithToken

/-- Function `RefreshToken` (lines 197-291). `now` is the instant at which the presented token
is validated, `clock` the later clock reads of `generateTokens`. -/
def RefreshToken (mac : Mac) (JWTSecret : String) (order : MapOrder) (store : Store)
    (now : Int) (clock : ClockReads) (refreshToken : TokenString) : RefreshResult :=
  match Parse mac JWTSecret now refreshToken with
  | Except.error _ => { calls := [], result := Except.error "token de atualização inválido" }
  | Except.ok claims =>
    match claims.lookup "sub" with
    | some (JSON.str userID) =>
      match claims.lookup "type" with
      | some (JSON.str tokenType) =>
        if tokenType ≠ "refresh" then
          { calls := [], result := Except.error "tipo de token inválido" }
        else
          match FindByID store userID with
          | Except.error err => { calls := [Call.findByID userID], result := Except.error err }
          | Except.ok user =>
            match generateTokens mac JWTSecret clock user with
            | Except.error err =>
              { calls := [Call.findByID userID, Call.generateTokens user.ID],
                result := Except.error err }
            | Except.ok (accessToken, newRefreshToken, expiresIn) =>
              { calls := [Call.findByID userID, Call.generateTokens user.ID],
                result := Except.ok
                  { User := userResponse order user, AccessToken := accessToken,
                    RefreshToken := newRefreshToken, ExpiresIn := expiresIn } }
      | _ => { calls := [], result := Except.error "tipo de token inválido" }
    | _ => { calls := [], result := Except.error "ID de usuário inválido no token" }

/-! ## The repositories used at login (`repository/`) -/

/-- Which database calls of one login fail, and with which error; `none` is a call that
succeeds. -/
structure Faults where
  findByGoogleID : Option String := none
  findOrCreateDefaultRoles : Option String := none
  listAll : Option String := none
  create : Option String := none
  update : Option String := none

/-- The constant `models.RoleAdmin`. -/
def RoleAdmin : String := "admin"

/-- The constant `models.RoleUser`. -/
def RoleUser : String := "user"

/-- Function `models.GetDefaultRoles`. -/
def GetDefaultRoles : List Role :=
  [{ Name := RoleAdmin,
     Permissions := ["users:read", "users:write", "groups:read", "groups:write", "roles:read",
       "roles:write"] },
   { Name := RoleUser, Permissions := ["profile:read"] }]

/-- The text form of `uuid.Nil`, the id of a record that was never saved. -/
def uuidNil : String := "00000000-0000-0000-0000-000000000000"

/-- A group as `Preload("Groups")` loads it: its roles are not loaded. -/
def withoutRoles (group : Group) : Group := { group with Roles := [] }

/-- The method `UserRepository.FindByGoogleID` (lines 23-34): `Preload("Groups")` and
`Preload("Roles")` only, so the groups come without their roles; no record is `nil, nil`. -/
def FindByGoogleID (faults : Faults) (store : Store) (googleID : String) :
    Except String (Option User) :=
  match faults.findByGoogleID with
  | some err => Except.error err
  | none =>
    match store.users.find? (fun u => decide (u.GoogleID = googleID)) with
    | none => Except.ok none
    | some user => Except.ok (some { user with Groups := user.Groups.map withoutRoles })

/-- The method `UserRepository.ListAll` (lines 56-63): same preloads as `FindByGoogleID`. -/
def ListAll (faults : Faults) (store : Store) : Except String (List User) :=
  match faults.listAll with
  | some err => Except.error err
  | none =>
    Except.ok (store.users.map (fun user =>
      { user with Groups := user.Groups.map withoutRoles }))

/-- Body of the loop of `FindOrCreateDefaultRoles` (lines 88-105): the role found by name goes
into the map, a missing one is created from the default and goes into the map. -/
def defaultRoleStep (acc : Store × List (String × Role)) (defaultRole : Role) :
    Store × List (String × Role) :=
  match acc.1.roles.find? (fun r => decide (r.Name = defaultRole.Name)) with
  | some role => (acc.1, (role.Name, role) :: acc.2)
  | none =>
    ({ acc.1 with roles := acc.1.roles ++ [defaultRole] }, (defaultRole.Name, defaultRole) :: acc.2)

/-- The method `GroupRepository.FindOrCreateDefaultRoles` (lines 84-108); a failing query is
placed before the first effect. -/
def FindOrCreateDefaultRoles (faults : Faults) (store : Store) :
    Store × Except String (List (String × Role)) :=
  match faults.findOrCreateDefaultRoles with
  | some err => (store, Except.error err)
  | none =>
    ((GetDefaultRoles.foldl defaultRoleStep (store, [])).1,
      Except.ok (GetDefaultRoles.foldl defaultRoleStep (store, [])).2)

/-- The index expression `defaultRoles[name]` on the Go map: the zero `Role` for a missing key. -/
def roleAt (defaultRoles : List (String × Role)) (name : String) : Role :=
  match defaultRoles.lookup name with
  | some role => role
  | none => { Name := "", Permissions := [] }

/-- The method `UserRepository.Create` with the hook `BeforeCreate`: a record whose id is
`uuid.Nil` gets the fresh id `newID`; the record is inserted with its role and group links. -/
def Create (faults : Faults) (newID : String) (store : Store) (user : User) :
    Store × Except String User :=
  match faults.create with
  | some err => (store, Except.error err)
  | none =>
    ({ store with users := store.users ++ [{ user with ID := if user.ID = uuidNil then newID
                                                               else user.ID }] },
      Except.ok { user with ID := if user.ID = uuidNil then newID else user.ID })

/-- What `db.Save` does to the stored record with the id of `user`: the columns are overwritten
and the links to roles and groups of `user` that are not yet stored are added; no link is
removed and no linked role or group is rewritten. -/
def saveInto (user stored : User) : User :=
  if stored.ID = user.ID then
    { stored with
      Email := user.Email, Name := user.Name, Picture := user.Picture,
      GoogleID := user.GoogleID,
      Roles := stored.Roles ++
        user.Roles.filter (fun r => decide (r.Name ∉ stored.Roles.map (fun x => x.Name))),
      Groups := stored.Groups ++
        user.Groups.filter (fun g => decide (g.Name ∉ stored.Groups.map (fun x => x.Name))) }
  else stored

/-- The method `UserRepository.Update` (`db.Save`) on a record that is stored. -/
def Update (faults : Faults) (store : Store) (user : User) : Store × Except String Unit :=
  match faults.update with
  | some err => (store, Except.error err)
  | none => ({ store with users := store.users.map (saveInto user) }, Except.ok ())

/-! ## `ProcessGoogleCallback` (`services/auth_services.go`) -/

/-- Struct `GoogleUserInfo`: the profile returned by the provider. -/
structure GoogleUserInfo where
  ID : String
  Email : String
  Name : String
  Picture : String
  deriving DecidableEq, Repr

/-- The calls `ProcessGoogleCallback` makes to the repositories, in order, with the record
passed to `Create` and to `Update`. -/
inductive LoginCall where
  | findByGoogleID (googleID : String)
  | findOrCreateDefaultRoles
  | listAll
  | create (user : User)
  | update (user : User)
  deriving DecidableEq, Repr

/-- Result of `ProcessGoogleCallback`: the store it leaves, the calls made and the returned
pair `(result, err)`. -/
structure LoginResult where
  store : Store
  calls : List LoginCall
  result : Except String UserWithToken

/-- Lines 103-160 of `ProcessGoogleCallback`: tokens and user summary for `user`. -/
def respond (mac : Mac) (JWTSecret : String) (order : MapOrder) (clock : ClockReads)
    (user : User) : Except String UserWithToken :=
  match generateTokens mac JWTSecret clock user with
  | Except.error err => Except.error err
  | Except.ok (accessToken, refreshToken, expiresIn) =>
    Except.ok { User := userResponse order user, AccessToken := accessToken,
                RefreshToken := refreshToken, ExpiresIn := expiresIn }

/-- Function `ProcessGoogleCallback` (lines 45-161). `federation` is the outcome of the code
exchange and of `fetchGoogleUserInfo`; `newID` is the id that `uuid.New()` would give. -/
def ProcessGoogleCallback (mac : Mac) (JWTSecret : String) (order : MapOrder)
    (faults : Faults) (newID : String) (clock : ClockReads) (store : Store)
    (federation : Except String GoogleUserInfo) : LoginResult :=
  match federation with
  | Except.error err => { store := store, calls := [], result := Except.error err }
  | Except.ok userInfo =>
    match FindByGoogleID faults store userInfo.ID with
    | Except.error err =>
      { store := store, calls := [LoginCall.findByGoogleID userInfo.ID],
        result := Except.error err }
    | Except.ok found =>
      match FindOrCreateDefaultRoles faults store with
      | (store1, Except.error err) =>
        { store := store1,
          calls := [LoginCall.findByGoogleID userInfo.ID, LoginCall.findOrCreateDefaultRoles],
          result := Except.error err }
      | (store1, Except.ok defaultRoles) =>
        match found with
        | none =>
          let existingUsers : List User :=
            match ListAll faults store1 with
            | Except.ok users => users
            | Except.error _ => []
          let user : User :=
            { ID := uuidNil, GoogleID := userInfo.ID, Email := userInfo.Email,
              Name := userInfo.Name, Picture := userInfo.Picture, Groups := [],
              Roles := if existingUsers.length = 0 then [roleAt defaultRoles RoleAdmin]
                       else [roleAt defaultRoles RoleUser] }
          match Create faults newID store1 user with
          | (store2, Except.error err) =>
            { store := store2,
              calls := [LoginCall.findByGoogleID userInfo.ID,
                LoginCall.findOrCreateDefaultRoles, LoginCall.listAll, LoginCall.create user],
              result := Except.error err }
          | (store2, Except.ok created) =>
            { store := store2,
              calls := [LoginCall.findByGoogleID userInfo.ID,
                LoginCall.findOrCreateDefaultRoles, LoginCall.listAll, LoginCall.create user],
              result := respond mac JWTSecret order clock created }
        | some existing =>
          let user : User :=
            { existing with
              Email := userInfo.Email, Name := userInfo.Name, Picture := userInfo.Picture }
          match Update faults store1 user with
          | (store2, Except.error err) =>
            { store := store2,
              calls := [LoginCall.findByGoogleID userInfo.ID,
                LoginCall.findOrCreateDefaultRoles, LoginCall.update user],
              result := Except.error err }
          | (store2, Except.ok _) =>
            { store := store2,
              calls := [LoginCall.findByGoogleID userInfo.ID,
                LoginCall.findOrCreateDefaultRoles, LoginCall.update user],
              result := respond mac JWTSecret order clock user }

/-! ## `RoleMiddleware`, `PermissionMiddleware` and the admin routes -/

/-- A value stored under a key of the gin context: a `[]string`, or a value of another type. -/
inductive GinValue where
  | strings (list : List String)
  | other
  deriving DecidableEq, Repr

/-- How a role or permission gate leaves the request. -/
inductive GateOutcome where
  | abort (status : Nat) (error : String)
  | next
  deriving DecidableEq, Repr

/-- The loops at lines 93-99 and 128-134: `true` as soon as an element equals `required`. -/
def hasElement (required : String) : List String → Bool
  | [] => false
  | x :: rest => if x = required then true else hasElement required rest

/-- Function `RoleMiddleware(requiredRole)` (lines 77-109); `stored` is what
`c.Get("roles")` finds, `none` when the key does not exist. -/
def RoleMiddleware (requiredRole : String) (stored : Option GinValue) : GateOutcome :=
  match stored with
  | none => GateOutcome.abort 403 "Informações de papel não encontradas"
  | some GinValue.other => GateOutcome.abort 500 "Formato inválido para papéis"
  | some (GinValue.strings roleList) =>
    if hasElement requiredRole roleList then GateOutcome.next
    else GateOutcome.abort 403 "Acesso negado: papel necessário não encontrado"

/-- Function `PermissionMiddleware(requiredPermission)` (lines 112-144); `stored` is what
`c.Get("permissions")` finds. -/
def PermissionMiddleware (requiredPermission : String) (stored : Option GinValue) :
    GateOutcome :=
  match stored with
  | none => GateOutcome.abort 403 "Informações de permissão não encontradas"
  | some GinValue.other => GateOutcome.abort 500 "Formato inválido para permissões"
  | some (GinValue.strings permList) =>
    if hasElement requiredPermission permList then GateOutcome.next
    else GateOutcome.abort 403 "Acesso negado: permissão necessária não encontrada"

/-- What happened to a request on a route: which gates were evaluated, whether the handler
ran, and the status written by a gate (`none` when the handler answers). -/
structure RouteResult where
  roleGateEvaluated : Bool
  handlerRan : Bool
  status : Option Nat
  deriving DecidableEq, Repr

/-- The chain of the routes under `/api/admin` (`main.go` lines 67-82): `AuthMiddleware`, then
`RoleMiddleware("admin")`, then the handler. An aborted request skips the rest of the chain;
a panic is caught by the recovery middleware of `gin.Default()`, which answers 500. -/
def adminRoute (mac : Mac) (secretKey : String) (now : Int)
    (authHeader : Option TokenString) : RouteResult :=
  match AuthMiddleware mac secretKey now authHeader with
  | Outcome.abort status _ =>
    { roleGateEvaluated := false, handlerRan := false, status := some status }
  | Outcome.panic => { roleGateEvaluated := false, handlerRan := false, status := some 500 }
  | Outcome.next ctx =>
    match RoleMiddleware "admin" (ctx.roles.map GinValue.strings) with
    | GateOutcome.abort status _ =>
      { roleGateEvaluated := true, handlerRan := false, status := some status }
    | GateOutcome.next => { roleGateEvaluated := true, handlerRan := true, status := none }

/-! ## Definitions used to state the properties -/

/-- The elements of a possibly nil slice. -/
def elems (o : Option (List String)) : List String := o.getD []

/-- The loop invariant of the deduplication: the map marks exactly the elements already
appended, and nothing was appended twice. -/
def UniqueInv (st : (String → Bool) × Option (List String)) : Prop :=
  (∀ k, st.1 k = true ↔ k ∈ elems st.2) ∧ (elems st.2).Nodup

/-- A stand-in MAC, used only to evaluate the definitions on concrete inputs. -/
def toyMac : Mac := fun alg key claims => alg.length + 17 * key.length + 257 * claims.length

/-- A user without any role or group. -/
def bareUser : User :=
  { ID := "7d0a", Email := "ann@example.org", Name := "Ann", Picture := "", GoogleID := "g-1",
    Groups := [], Roles := [] }

/-- A user holding the default role "user" directly and the default role "admin" through a
group (`models.GetDefaultRoles`). -/
def staffUser : User :=
  { ID := "41c2", Email := "bob@example.org", Name := "Bob", Picture := "", GoogleID := "g-2",
    Groups := [{ Name := "staff", Roles := [{ Name := "admin", Permissions :=
      ["users:read", "users:write", "groups:read", "groups:write", "roles:read",
        "roles:write"] }] }],
    Roles := [{ Name := "user", Permissions := ["profile:read"] }] }

/-- Five clock reads ten nanoseconds apart, starting at 1700000000 s after the epoch. -/
def tenApart : ClockReads :=
  { atAccessExpiry := 1700000000000000000, atRefreshExpiry := 1700000000000000010,
    atExpiresIn := 1700000000000000020, atAccessIat := 1700000000000000030,
    atRefreshIat := 1700000000000000040 }

/-- The map traversal that yields the keys in insertion order. -/
def insertionOrder : MapOrder :=
  { iter := fun ks => ks, perm := fun ks => List.Perm.refl ks }

/-- A store holding the two sample users. -/
def sampleStore : Store := { users := [bareUser, staffUser] }

/-- Claims of a hand-made token for `staffUser` with the given kind and `exp`. -/
def forgedClaims (kind : String) (exp : ℚ) : MapClaims :=
  [("sub", JSON.str "41c2"), ("exp", JSON.num exp), ("type", JSON.str kind)]

/-- A hand-made token declaring `alg`, with the MAC that `toyMac` gives for that algorithm
under the key "k". -/
def forgedToken (alg kind : String) (exp : ℚ) : Token :=
  { alg := alg, claims := forgedClaims kind exp,
    signature := toyMac alg "k" (forgedClaims kind exp) }

/-- No database call fails. -/
def noFaults : Faults := {}

/-- The record that `ProcessGoogleCallback` builds for a first login and `Create` stores. -/
def newUser (id : String) (userInfo : GoogleUserInfo) (role : Role) : User :=
  { ID := id, GoogleID := userInfo.ID, Email := userInfo.Email, Name := userInfo.Name,
    Picture := userInfo.Picture, Groups := [], Roles := [role] }

/-- The profile the provider returns for subject `googleID`. -/
def profileOf (googleID : String) : GoogleUserInfo :=
  { ID := googleID, Email := googleID ++ "@example.org", Name := "N " ++ googleID,
    Picture := "" }

/-- A user holding only the role "user", as stored when the session is issued. -/
def memberBefore : User :=
  { ID := "9e1f", Email := "eve@example.org", Name := "Eve", Picture := "", GoogleID := "g-3",
    Groups := [], Roles := [{ Name := "user", Permissions := ["profile:read"] }] }

/-- The same user after the role "admin" was added. -/
def memberAfter : User :=
  { memberBefore with
    Roles := [{ Name := "user", Permissions := ["profile:read"] },
              { Name := "admin", Permissions := ["users:read", "users:write"] }] }

/-- The store at refresh time: the user with the added role among three other users. -/
def promotedStore : Store :=
  { users := [bareUser, memberAfter, staffUser,
      newUser "c3b7" (profileOf "g-4") { Name := "user", Permissions := ["profile:read"] }] }

/-- The number 1700000900.99999999, which lies 10 ns before a whole second and has no exact
`float64`. -/
def nearlyNextSecond : ℚ := mkRat 170000090099999999 100000000

/-- Claims of a hand-made access token for `staffUser` with the given `roles` value. -/
def claimsWithRoles (roles : JSON) : MapClaims :=
  [("sub", JSON.str "41c2"), ("roles", roles), ("exp", JSON.num 1700000900),
   ("type", JSON.str "access")]

/-- A hand-made HS256 token with the given `roles` value, correctly signed under the key "k". -/
def tokenWithRoles (roles : JSON) : Token :=
  { alg := "HS256", claims := claimsWithRoles roles,
    signature := toyMac "HS256" "k" (claimsWithRoles roles) }

/-- The user listing fails, every other database call succeeds. -/
def listingFails : Faults := { listAll := some "connection reset" }

/-- The role names and permissions of the access token, and those of the user summary, of a
returned response; four empty lists for an error. -/
def grants (result : Except String UserWithToken) :
    (List String × List String) × (List String × List String) :=
  match result with
  | Except.ok w =>
    ((stringsOf (w.AccessToken.claims.lookup "roles"),
      stringsOf (w.AccessToken.claims.lookup "permissions")),
     (w.User.Roles, w.User.Permissions))
  | Except.error _ => (([], []), ([], []))

/-- A hand-made HS256 token without a `sub` claim, correctly signed under the key "k". -/
def tokenWithoutSub : Token :=
  { alg := "HS256",
    claims := [("roles", JSON.arr [JSON.str "admin"]), ("exp", JSON.num 1700000900),
      ("type", JSON.str "access")],
    signature := toyMac "HS256" "k"
      [("roles", JSON.arr [JSON.str "admin"]), ("exp", JSON.num 1700000900),
        ("type", JSON.str "access")] }

/-! ## Lemmas on collecting and deduplicating -/

theorem foldl_collectRole_fst (rs : List Role) (acc : List String × List String) :
    (rs.foldl collectRole acc).1 = acc.1 ++ rs.map (fun r => r.Name) := by
  induction rs generalizing acc with
  | nil => simp
  | cons r rs ih => simp [List.foldl, ih, collectRole]

theorem foldl_collectRole_snd (rs : List Role) (acc : List String × List String) :
    (rs.foldl collectRole acc).2 = acc.2 ++ (rs.map (fun r => r.Permissions)).flatten := by
  induction rs generalizing acc with
  | nil => simp
  | cons r rs ih => simp [List.foldl, ih, collectRole]

theorem foldl_groups_fst (gs : List Group) (acc : List String × List String) :
    (gs.foldl (fun acc group => group.Roles.foldl collectRole acc) acc).1
      = acc.1 ++ (gs.map (fun g => g.Roles.map (fun r => r.Name))).flatten := by
  induction gs generalizing acc with
  | nil => simp
  | cons g gs ih => simp [List.foldl, ih, foldl_collectRole_fst]

theorem foldl_groups_snd (gs : List Group) (acc : List String × List String) :
    (gs.foldl (fun acc group => group.Roles.foldl collectRole acc) acc).2
      = acc.2 ++ (gs.map (fun g => (g.Roles.map (fun r => r.Permissions)).flatten)).flatten := by
  induction gs generalizing acc with
  | nil => simp
  | cons g gs ih => simp [List.foldl, ih, foldl_collectRole_snd]

theorem mem_collect_fst (user : User) (n : String) :
    n ∈ (collect user).1 ↔
      (∃ r ∈ user.Roles, r.Name = n) ∨ ∃ g ∈ user.Groups, ∃ r ∈ g.Roles, r.Name = n := by
  simp [collect, foldl_groups_fst, foldl_collectRole_fst]

theorem mem_collect_snd (user : User) (p : String) :
    p ∈ (collect user).2 ↔
      (∃ r ∈ user.Roles, p ∈ r.Permissions) ∨
        ∃ g ∈ user.Groups, ∃ r ∈ g.Roles, p ∈ r.Permissions := by
  simp [collect, foldl_groups_snd, foldl_collectRole_snd]

theorem elems_goAppend (o : Option (List String)) (x : String) :
    elems (goAppend o x) = elems o ++ [x] := by
  cases o <;> simp [elems, goAppend]

theorem uniqueStep_inv (st : (String → Bool) × Option (List String)) (x : String)
    (h : UniqueInv st) : UniqueInv (uniqueStep st x) := by
  obtain ⟨hm, hn⟩ := h
  unfold uniqueStep
  by_cases hx : st.1 x = true
  · simp [hx]
    exact ⟨hm, hn⟩
  · have hx' : st.1 x = false := by simpa using hx
    have hnot : x ∉ elems st.2 := fun hin => hx ((hm x).2 hin)
    simp only [hx', Bool.not_false, if_true]
    refine ⟨?_, ?_⟩
    · intro k
      simp only [elems_goAppend, List.mem_append, List.mem_singleton]
      by_cases hk : k = x
      · simp [hk]
      · simp [hk, hm k]
    · simp only [elems_goAppend]
      exact List.Nodup.append hn (List.nodup_singleton x) (by simpa using hnot)

theorem uniqueStep_mem (st : (String → Bool) × Option (List String)) (x y : String)
    (h : UniqueInv st) : y ∈ elems (uniqueStep st x).2 ↔ y ∈ elems st.2 ∨ y = x := by
  obtain ⟨hm, _⟩ := h
  unfold uniqueStep
  by_cases hx : st.1 x = true
  · simp only [hx, Bool.not_true, Bool.false_eq_true, if_false]
    constructor
    · intro hy; exact Or.inl hy
    · rintro (hy | hy)
      · exact hy
      · subst hy; exact (hm y).1 hx
  · have hx' : st.1 x = false := by simpa using hx
    simp [hx', elems_goAppend]

theorem foldl_uniqueStep (xs : List String) (st : (String → Bool) × Option (List String))
    (h : UniqueInv st) :
    UniqueInv (xs.foldl uniqueStep st) ∧
      ∀ y, y ∈ elems (xs.foldl uniqueStep st).2 ↔ y ∈ elems st.2 ∨ y ∈ xs := by
  induction xs generalizing st with
  | nil => simp [h]
  | cons x xs ih =>
    have h1 := uniqueStep_inv st x h
    obtain ⟨hinv, hmem⟩ := ih (uniqueStep st x) h1
    refine ⟨hinv, ?_⟩
    intro y
    simp only [List.foldl, hmem y, uniqueStep_mem st x y h, List.mem_cons]
    tauto

theorem uniqueInv_init : UniqueInv (fun _ => false, none) := by
  simp [UniqueInv, elems]

theorem mem_unique (xs : List String) (y : String) : y ∈ elems (unique xs) ↔ y ∈ xs := by
  have h := (foldl_uniqueStep xs _ uniqueInv_init).2 y
  simpa [unique, elems] using h

theorem nodup_unique (xs : List String) : (elems (unique xs)).Nodup :=
  (foldl_uniqueStep xs _ uniqueInv_init).1.2

theorem unique_eq_none (xs : List String) : unique xs = none ↔ xs = [] := by
  constructor
  · intro h
    cases xs with
    | nil => rfl
    | cons x xs =>
      exfalso
      have hx : x ∈ elems (unique (x :: xs)) := (mem_unique _ x).2 (List.mem_cons_self x xs)
      simp [h, elems] at hx
  · intro h
    subst h
    rfl

theorem stringsOf_marshalStrings (o : Option (List String)) :
    stringsOf (some (marshalStrings o)) = elems o := by
  cases o with
  | none => simp [marshalStrings, stringsOf, elems]
  | some xs =>
    simp only [marshalStrings, stringsOf, elems, Option.getD_some]
    induction xs with
    | nil => simp
    | cons x xs ih => simp [List.filterMap_cons, ih]

/-! ## Claims on `generateTokens` -/

theorem generateTokens_eq (mac : Mac) (secret : String) (clock : ClockReads) (user : User) :
    generateTokens mac secret clock user = Except.ok
      ({ alg := "HS256", claims := accessClaims clock user,
         signature := mac "HS256" secret (accessClaims clock user) },
       { alg := "HS256", claims := refreshClaims clock user,
         signature := mac "HS256" secret (refreshClaims clock user) },
       truncSeconds (clock.atAccessExpiry + 15 * 60 * Second - clock.atExpiresIn)) := rfl

theorem accessClaims_roles (clock : ClockReads) (user : User) :
    (accessClaims clock user).lookup "roles" = some (marshalStrings (finalRoles user)) := by
  simp [accessClaims, List.lookup]

theorem accessClaims_permissions (clock : ClockReads) (user : User) :
    (accessClaims clock user).lookup "permissions"
      = some (marshalStrings (finalPermissions user)) := by
  simp [accessClaims, List.lookup]

/-- C1: the strings of the `permissions` claim of the access token built by `generateTokens`
are exactly the permissions of the direct roles and of the roles of every group of the user,
and the strings of the `roles` claim are exactly the names of those roles. -/
theorem C1_claims_are_union (mac : Mac) (secret : String) (clock : ClockReads) (user : User) :
    ∃ access refresh expiresIn,
      generateTokens mac secret clock user = Except.ok (access, refresh, expiresIn) ∧
      (∀ p, p ∈ stringsOf (access.claims.lookup "permissions") ↔
        (∃ r ∈ user.Roles, p ∈ r.Permissions) ∨
          ∃ g ∈ user.Groups, ∃ r ∈ g.Roles, p ∈ r.Permissions) ∧
      (∀ n, n ∈ stringsOf (access.claims.lookup "roles") ↔
        (∃ r ∈ user.Roles, r.Name = n) ∨ ∃ g ∈ user.Groups, ∃ r ∈ g.Roles, r.Name = n) := by
  refine ⟨_, _, _, generateTokens_eq mac secret clock user, ?_, ?_⟩
  · intro p
    rw [accessClaims_permissions, stringsOf_marshalStrings, finalPermissions, mem_unique,
      mem_collect_snd]
  · intro n
    rw [accessClaims_roles, stringsOf_marshalStrings, finalRoles, mem_unique, mem_collect_fst]

/-- C2: the role-name list and the permission list embedded in the access token built by
`generateTokens` have no duplicate element. -/
theorem C2_claims_nodup (mac : Mac) (secret : String) (clock : ClockReads) (user : User) :
    ∃ access refresh expiresIn,
      generateTokens mac secret clock user = Except.ok (access, refresh, expiresIn) ∧
      (stringsOf (access.claims.lookup "roles")).Nodup ∧
      (stringsOf (access.claims.lookup "permissions")).Nodup := by
  refine ⟨_, _, _, generateTokens_eq mac secret clock user, ?_, ?_⟩
  · rw [accessClaims_roles, stringsOf_marshalStrings]
    exact nodup_unique _
  · rw [accessClaims_permissions, stringsOf_marshalStrings]
    exact nodup_unique _


/-! ## Lemmas on the numbers -/

theorem bitLen_le (fuel : Nat) : ∀ n j : Nat, n < 2 ^ j → bitLen fuel n ≤ j := by
  induction fuel with
  | zero => intro n j _; simp [bitLen]
  | succ fuel ih =>
    intro n j h
    unfold bitLen
    by_cases hn : n = 0
    · simp [hn]
    · simp only [hn, if_false]
      cases j with
      | zero => simp at h; exact absurd h hn
      | succ j =>
        have : n / 2 < 2 ^ j := by
          rw [Nat.div_lt_iff_lt_mul (by decide)]
          rw [pow_succ] at h
          exact h
        have := ih (n / 2) j this
        omega

theorem lt_two_pow_bitLen (fuel : Nat) : ∀ n : Nat, n ≤ fuel → n < 2 ^ bitLen fuel n := by
  induction fuel with
  | zero => intro n h; simp [bitLen]; omega
  | succ fuel ih =>
    intro n h
    unfold bitLen
    by_cases hn : n = 0
    · simp [hn]
    · simp only [hn, if_false]
      have h2 : n / 2 ≤ fuel := by omega
      have := ih (n / 2) h2
      rw [pow_succ]
      omega

theorem binade_le (n : Int) (d : Nat) (h : n.natAbs < 2 ^ 53 * d) : binade n d ≤ 52 := by
  have hd : d < 2 ^ bitLen d d := lt_two_pow_bitLen d d le_rfl
  have hp : bitLen n.natAbs n.natAbs ≤ 53 + bitLen d d := by
    apply bitLen_le
    rw [pow_add]
    calc n.natAbs < 2 ^ 53 * d := h
      _ < 2 ^ 53 * 2 ^ bitLen d d := by
        nlinarith
  unfold binade
  simp only
  split
  · omega
  · rename_i hc
    by_contra hcon
    have he : 53 ≤ (bitLen n.natAbs n.natAbs : Int) - (bitLen d d : Int) := by omega
    obtain ⟨e, hee⟩ : ∃ e : Nat, (bitLen n.natAbs n.natAbs : Int) - (bitLen d d : Int) = e :=
      ⟨((bitLen n.natAbs n.natAbs : Int) - (bitLen d d : Int)).toNat, by omega⟩
    rw [hee] at hc he
    have h53 : 53 ≤ e := by omega
    simp only [Int.toNat_ofNat, Int.toNat_neg_nat, pow_zero, mul_one] at hc
    have : 2 ^ 53 ≤ 2 ^ e := Nat.pow_le_pow_right (by decide) h53
    have : d * 2 ^ 53 ≤ d * 2 ^ e := Nat.mul_le_mul_left d this
    omega

theorem roundHalfEven_le (n : Int) (d : Nat) (M : Int) (hd : 0 < d) (h : n ≤ M * d) :
    roundHalfEven n d ≤ M := by
  have hd' : (0 : Int) < d := by exact_mod_cast hd
  have h1 := Int.ediv_add_emod n d
  have h2 := Int.emod_nonneg n (ne_of_gt hd')
  have h3 := Int.emod_lt_of_pos n hd'
  have hfl : n / d ≤ M := by
    by_contra hc
    have : M + 1 ≤ n / d := by omega
    nlinarith
  unfold roundHalfEven
  split
  · exact hfl
  · rename_i hc
    have hr : 0 < n % d := by omega
    have : n / d < M := by
      by_contra hc2
      have : M ≤ n / d := by omega
      nlinarith
    split
    · omega
    · split
      · omega
      · omega

theorem le_roundHalfEven (n : Int) (d : Nat) (M : Int) (hd : 0 < d) (h : M * d ≤ n) :
    M ≤ roundHalfEven n d := by
  have hd' : (0 : Int) < d := by exact_mod_cast hd
  have h1 := Int.ediv_add_emod n d
  have h2 := Int.emod_nonneg n (ne_of_gt hd')
  have h3 := Int.emod_lt_of_pos n hd'
  have hfl : M ≤ n / d := by
    by_contra hc
    have : n / d + 1 ≤ M := by omega
    nlinarith
  unfold roundHalfEven
  split
  · exact hfl
  · split
    · omega
    · split
      · omega
      · omega

theorem ulpExponent_le (n : Int) (d : Nat) (h : n.natAbs < 2 ^ 53 * d) :
    ulpExponent n d ≤ 0 := by
  have := binade_le n d h
  unfold ulpExponent
  omega

theorem roundFloat64_eq (n : Int) (d : Nat) (h : n.natAbs < 2 ^ 53 * d) :
    roundFloat64 n d
      = (roundHalfEven (n * 2 ^ (-ulpExponent n d).toNat) d : ℚ)
          / (2 : ℚ) ^ (-ulpExponent n d).toNat := by
  have hk := ulpExponent_le n d h
  have h0 : (ulpExponent n d).toNat = 0 := by omega
  unfold roundFloat64 mantissa
  rw [h0, Rat.mkRat_eq_div]
  simp

theorem roundFloat64_le (n : Int) (d : Nat) (M : Int) (hd : 0 < d)
    (hn : n.natAbs < 2 ^ 53 * d) (h : n ≤ M * d) : roundFloat64 n d ≤ (M : ℚ) := by
  rw [roundFloat64_eq n d hn]
  have hm : roundHalfEven (n * 2 ^ (-ulpExponent n d).toNat) d
      ≤ M * 2 ^ (-ulpExponent n d).toNat := by
    apply roundHalfEven_le _ _ _ hd
    have : (0 : Int) ≤ 2 ^ (-ulpExponent n d).toNat := by positivity
    nlinarith
  rw [div_le_iff₀ (by positivity)]
  exact_mod_cast hm

theorem le_roundFloat64 (n : Int) (d : Nat) (M : Int) (hd : 0 < d)
    (hn : n.natAbs < 2 ^ 53 * d) (h : M * d ≤ n) : (M : ℚ) ≤ roundFloat64 n d := by
  rw [roundFloat64_eq n d hn]
  have hm : M * 2 ^ (-ulpExponent n d).toNat
      ≤ roundHalfEven (n * 2 ^ (-ulpExponent n d).toNat) d := by
    apply le_roundHalfEven _ _ _ hd
    have : (0 : Int) ≤ 2 ^ (-ulpExponent n d).toNat := by positivity
    nlinarith
  rw [le_div_iff₀ (by positivity)]
  exact_mod_cast hm

theorem roundFloat64_int (e : Int) (h : e.natAbs < 2 ^ 53) : roundFloat64 e 1 = (e : ℚ) :=
  le_antisymm (roundFloat64_le e 1 e (by decide) (by omega) (by simp))
    (le_roundFloat64 e 1 e (by decide) (by omega) (by simp))

theorem float64_int (e : Int) (h : e.natAbs < 2 ^ 53) : float64 (e : ℚ) = some (e : ℚ) := by
  have hk := ulpExponent_le e 1 (by omega)
  have hup : mantissa e 1 ≤ 2 ^ 53 * 2 ^ (-ulpExponent e 1).toNat := by
    unfold mantissa
    have h0 : (ulpExponent e 1).toNat = 0 := by omega
    rw [h0]
    apply roundHalfEven_le _ _ _ (by simp)
    have : (0 : Int) ≤ 2 ^ (-ulpExponent e 1).toNat := by positivity
    have : e ≤ 2 ^ 53 := by omega
    simp only [pow_zero, mul_one, Nat.cast_one]
    nlinarith
  have hlo : -(2 ^ 53 * 2 ^ (-ulpExponent e 1).toNat) ≤ mantissa e 1 := by
    unfold mantissa
    have h0 : (ulpExponent e 1).toNat = 0 := by omega
    rw [h0]
    apply le_roundHalfEven _ _ _ (by simp)
    have : (0 : Int) ≤ 2 ^ (-ulpExponent e 1).toNat := by positivity
    have : -(2 ^ 53) ≤ e := by omega
    simp only [pow_zero, mul_one, Nat.cast_one]
    nlinarith
  have hbl : bitLen (mantissa e 1).natAbs (mantissa e 1).natAbs
      ≤ 54 + (-ulpExponent e 1).toNat := by
    apply bitLen_le
    have : ((mantissa e 1).natAbs : Int) < 2 ^ (54 + (-ulpExponent e 1).toNat) := by
      have hp : (0 : Int) < 2 ^ (-ulpExponent e 1).toNat := by positivity
      rw [pow_add]
      have : ((mantissa e 1).natAbs : Int) ≤ 2 ^ 53 * 2 ^ (-ulpExponent e 1).toNat := by
        generalize 2 ^ 53 * 2 ^ (-ulpExponent e 1).toNat = B at hup hlo
        omega
      nlinarith
    exact_mod_cast this
  unfold float64
  simp only [Rat.num_intCast, Rat.den_intCast]
  rw [if_pos (by omega), roundFloat64_int e h]


theorem tdiv_rem (a : Int) (b : Nat) (hb : 0 < b) :
    (0 ≤ a → 0 ≤ a - Int.tdiv a b * b ∧ a - Int.tdiv a b * b < b) ∧
    (a < 0 → -(b : Int) < a - Int.tdiv a b * b ∧ a - Int.tdiv a b * b ≤ 0) := by
  have hb' : (0 : Int) < b := by exact_mod_cast hb
  constructor
  · intro ha
    rw [Int.tdiv_eq_ediv ha (le_of_lt hb')]
    have h1 := Int.ediv_add_emod a b
    have h2 := Int.emod_nonneg a (ne_of_gt hb')
    have h3 := Int.emod_lt_of_pos a hb'
    constructor <;> nlinarith
  · intro ha
    have hn : Int.tdiv a b = -((-a) / b) := by
      have := Int.neg_tdiv (-a) b
      rw [neg_neg] at this
      rw [this, Int.tdiv_eq_ediv (by omega) (le_of_lt hb')]
    rw [hn]
    have h1 := Int.ediv_add_emod (-a) b
    have h2 := Int.emod_nonneg (-a) (ne_of_gt hb')
    have h3 := Int.emod_lt_of_pos (-a) hb'
    constructor <;> nlinarith

theorem num_le_of_le (x : ℚ) (M : Int) (h : x ≤ (M : ℚ)) : x.num ≤ M * x.den := by
  have hd : (0 : ℚ) < (x.den : ℚ) := by exact_mod_cast x.den_pos
  have h1 : (x.num : ℚ) / (x.den : ℚ) ≤ (M : ℚ) := by rwa [Rat.num_div_den]
  rw [div_le_iff₀ hd] at h1
  exact_mod_cast h1

theorem le_num_of_le (x : ℚ) (M : Int) (h : (M : ℚ) ≤ x) : M * x.den ≤ x.num := by
  have hd : (0 : ℚ) < (x.den : ℚ) := by exact_mod_cast x.den_pos
  have h1 : (M : ℚ) ≤ (x.num : ℚ) / (x.den : ℚ) := by rwa [Rat.num_div_den]
  rw [le_div_iff₀ hd] at h1
  exact_mod_cast h1

theorem truncate_le (x : ℚ) (M : Int) (h : x ≤ (M : ℚ)) : truncate x ≤ M := by
  have hn := num_le_of_le x M h
  have hd : (0 : Int) < x.den := by exact_mod_cast x.den_pos
  obtain ⟨h1, h2⟩ := tdiv_rem x.num x.den x.den_pos
  unfold truncate
  by_contra hc
  have hc' : M + 1 ≤ Int.tdiv x.num x.den := by omega
  by_cases ha : 0 ≤ x.num
  · have := h1 ha
    nlinarith
  · have := h2 (by omega)
    nlinarith

theorem le_truncate (x : ℚ) (M : Int) (h : (M : ℚ) ≤ x) : M ≤ truncate x := by
  have hn := le_num_of_le x M h
  have hd : (0 : Int) < x.den := by exact_mod_cast x.den_pos
  obtain ⟨h1, h2⟩ := tdiv_rem x.num x.den x.den_pos
  unfold truncate
  by_contra hc
  have hc' : Int.tdiv x.num x.den + 1 ≤ M := by omega
  by_cases ha : 0 ≤ x.num
  · have := h1 ha
    nlinarith
  · have := h2 (by omega)
    nlinarith

theorem truncate_intCast (e : Int) : truncate (e : ℚ) = e := by
  simp [truncate]

theorem newNumericDateFromSeconds_int (e : Int) (h : e.natAbs < 2 ^ 53) :
    newNumericDateFromSeconds (e : ℚ) = e := by
  unfold newNumericDateFromSeconds
  simp only [truncate_intCast, Rat.num_intCast, Rat.den_intCast, Nat.cast_one, mul_one,
    sub_self, zero_mul]
  rw [roundFloat64_int 0 (by decide)]
  simp only [Int.cast_zero, truncate_intCast]
  have h1 : (0 : ℚ) = ((0 : Int) : ℚ) := by simp
  rw [h1, truncate_intCast]
  unfold int64 wrap64 unixToInternal
  norm_num
  split <;> omega

theorem newNumericDateFromSeconds_le (f : ℚ) (now : Int) (hlo : -(2 : ℚ) ^ 63 ≤ f)
    (h : f * 1000000000 < (now : ℚ)) :
    newNumericDateFromSeconds f * 1000000000 ≤ now := by
  have hd : (0 : Int) < f.den := by exact_mod_cast f.den_pos
  have hdq : (0 : ℚ) < (f.den : ℚ) := by exact_mod_cast f.den_pos
  obtain ⟨h1, h2⟩ := tdiv_rem f.num f.den f.den_pos
  have ht : -(2 ^ 63) ≤ truncate f := le_truncate f (-(2 ^ 63)) (by push_cast; exact hlo)
  have hfrac : (f.num - truncate f * f.den).natAbs < f.den := by
    unfold truncate
    by_cases ha : 0 ≤ f.num
    · have := h1 ha
      omega
    · have := h2 (by omega)
      omega
  have hsmall : ((f.num - truncate f * f.den) * 1000000000).natAbs < 2 ^ 53 * f.den := by
    rw [Int.natAbs_mul]
    have : (1000000000 : Int).natAbs = 1000000000 := rfl
    rw [this]
    have : (2 : Nat) ^ 53 = 9007199254740992 := by norm_num
    omega
  have hnow : f.num * 1000000000 < now * f.den := by
    have h3 : (f.num : ℚ) / (f.den : ℚ) * 1000000000 < (now : ℚ) := by rwa [Rat.num_div_den]
    rw [div_mul_eq_mul_div, div_lt_iff₀ hdq] at h3
    exact_mod_cast h3
  have hx1 := roundFloat64_le _ f.den (now - truncate f * 1000000000) f.den_pos hsmall
    (by nlinarith)
  have hx2 := roundFloat64_le _ f.den 1000000000 f.den_pos hsmall (by
    have : f.num - truncate f * f.den < f.den := by omega
    nlinarith)
  have hx3 := le_roundFloat64 _ f.den (-1000000000) f.den_pos hsmall (by
    have : -(f.den : Int) < f.num - truncate f * f.den := by omega
    nlinarith)
  have hn1 := truncate_le _ _ hx1
  have hn2 := truncate_le _ _ hx2
  have hn3 := le_truncate _ _ hx3
  unfold newNumericDateFromSeconds
  simp only
  generalize truncate (roundFloat64 ((f.num - truncate f * f.den) * 1000000000) f.den) = nsec
    at hn1 hn2 hn3
  generalize truncate f = t at ht hn1
  unfold int64 wrap64 unixToInternal
  norm_num at ht ⊢
  split <;> split <;> omega

/-! ## Lemmas on validation of issued tokens -/

theorem Unix_add_seconds (t k : Int) : Unix (t + k * Second) = Unix t + k := by
  unfold Unix
  exact Int.add_mul_ediv_right t k (by decide)

theorem parseNumericDate_num (claims : MapClaims) (key : String) (e : Int)
    (hlo : -(2 ^ 53) < e) (hhi : e < 2 ^ 53)
    (h : claims.lookup key = some (JSON.num (e : ℚ))) :
    parseNumericDate claims key = Except.ok (if e = 0 then none else some e) := by
  have hb : e.natAbs < 2 ^ 53 := by omega
  unfold parseNumericDate
  rw [h]
  simp only [float64_int e hb]
  by_cases he : e = 0
  · simp [he]
  · have : ((e : ℚ) = 0) = False := by simpa using he
    simp [he, newNumericDateFromSeconds_int e hb]

theorem parseNumericDate_absent (claims : MapClaims) (key : String)
    (h : claims.lookup key = none) : parseNumericDate claims key = Except.ok none := by
  unfold parseNumericDate
  rw [h]

theorem validateClaims_of_exp (claims : MapClaims) (now e : Int)
    (hlo : -(2 ^ 53) < e) (hhi : e < 2 ^ 53)
    (hexp : claims.lookup "exp" = some (JSON.num (e : ℚ)))
    (hnbf : claims.lookup "nbf" = none) (h : now < e * Second) :
    validateClaims claims now = Except.ok () := by
  unfold validateClaims
  rw [parseNumericDate_num claims "exp" e hlo hhi hexp,
    parseNumericDate_absent claims "nbf" hnbf]
  by_cases he : e = 0
  · simp [he]
  · simp [he, h]

theorem Parse_signed (mac : Mac) (secret : String) (now : Int) (claims : MapClaims) :
    Parse mac secret now
        (TokenString.encoded
          { alg := "HS256", claims := claims, signature := mac "HS256" secret claims })
      = (match validateClaims claims now with
          | Except.error err => Except.error err
          | Except.ok _ => Except.ok claims) := by
  simp [Parse, GetSigningMethod, keyFunc, verifySignature]

theorem assertStrings_map (xs : List String) : assertStrings (xs.map JSON.str) = some xs := by
  induction xs with
  | nil => rfl
  | cons x xs ih => simp [assertStrings, ih]

theorem extractList_marshalStrings (o : Option (List String)) :
    extractList (some (marshalStrings o)) = some o := by
  cases o with
  | none => rfl
  | some xs => simp [extractList, marshalStrings, assertStrings_map]

theorem AuthMiddleware_access (mac : Mac) (secret : String) (clock : ClockReads) (user : User)
    (now : Int) (hlo : -(2 ^ 53) < Unix (clock.atAccessExpiry + 15 * 60 * Second))
    (hhi : Unix (clock.atAccessExpiry + 15 * 60 * Second) < 2 ^ 53)
    (h : now < Unix (clock.atAccessExpiry + 15 * 60 * Second) * Second) :
    AuthMiddleware mac secret now
        (some (TokenString.encoded
          { alg := "HS256", claims := accessClaims clock user,
            signature := mac "HS256" secret (accessClaims clock user) }))
      = Outcome.next
          { userID := some user.ID, roles := finalRoles user,
            permissions := finalPermissions user } := by
  have hv : validateClaims (accessClaims clock user) now = Except.ok () :=
    validateClaims_of_exp _ now _ hlo hhi (by simp [accessClaims, List.lookup])
      (by simp [accessClaims, List.lookup]) h
  have hsub : (accessClaims clock user).lookup "sub" = some (JSON.str user.ID) := by
    simp [accessClaims, List.lookup]
  simp only [AuthMiddleware, Parse_signed, hv, hsub, accessClaims_roles,
    accessClaims_permissions, extractList_marshalStrings]

theorem AuthMiddleware_refresh (mac : Mac) (secret : String) (clock : ClockReads) (user : User)
    (now : Int) (hlo : -(2 ^ 53) < Unix (clock.atRefreshExpiry + 7 * 24 * 3600 * Second))
    (hhi : Unix (clock.atRefreshExpiry + 7 * 24 * 3600 * Second) < 2 ^ 53)
    (h : now < Unix (clock.atRefreshExpiry + 7 * 24 * 3600 * Second) * Second) :
    AuthMiddleware mac secret now
        (some (TokenString.encoded
          { alg := "HS256", claims := refreshClaims clock user,
            signature := mac "HS256" secret (refreshClaims clock user) }))
      = Outcome.next { userID := some user.ID, roles := none, permissions := none } := by
  have hv : validateClaims (refreshClaims clock user) now = Except.ok () :=
    validateClaims_of_exp _ now _ hlo hhi (by simp [refreshClaims, List.lookup])
      (by simp [refreshClaims, List.lookup]) h
  have hsub : (refreshClaims clock user).lookup "sub" = some (JSON.str user.ID) := by
    simp [refreshClaims, List.lookup]
  have hr : (refreshClaims clock user).lookup "roles" = none := by
    simp [refreshClaims, List.lookup]
  have hp : (refreshClaims clock user).lookup "permissions" = none := by
    simp [refreshClaims, List.lookup]
  simp only [AuthMiddleware, Parse_signed, hv, hsub, hr, hp, extractList]

theorem finalRoles_eq_none (user : User) :
    finalRoles user = none ↔ user.Roles = [] ∧ ∀ g ∈ user.Groups, g.Roles = [] := by
  rw [finalRoles, unique_eq_none, List.eq_nil_iff_forall_not_mem]
  constructor
  · intro h
    refine ⟨?_, ?_⟩
    · cases hr : user.Roles with
      | nil => rfl
      | cons r rs =>
        exact absurd ((mem_collect_fst user r.Name).2 (Or.inl ⟨r, by simp [hr], rfl⟩)) (h _)
    · intro g hg
      cases hr : g.Roles with
      | nil => rfl
      | cons r rs =>
        exact absurd
          ((mem_collect_fst user r.Name).2 (Or.inr ⟨g, hg, r, by simp [hr], rfl⟩)) (h _)
  · rintro ⟨h1, h2⟩ n hn
    rcases (mem_collect_fst user n).1 hn with ⟨r, hr, _⟩ | ⟨g, hg, r, hr, _⟩
    · simp [h1] at hr
    · simp [h2 g hg] at hr

theorem finalPermissions_eq_none (user : User) :
    finalPermissions user = none ↔
      (∀ r ∈ user.Roles, r.Permissions = []) ∧
        ∀ g ∈ user.Groups, ∀ r ∈ g.Roles, r.Permissions = [] := by
  rw [finalPermissions, unique_eq_none, List.eq_nil_iff_forall_not_mem]
  constructor
  · intro h
    refine ⟨?_, ?_⟩
    · intro r hr
      cases hp : r.Permissions with
      | nil => rfl
      | cons p ps =>
        exact absurd ((mem_collect_snd user p).2 (Or.inl ⟨r, hr, by simp [hp]⟩)) (h _)
    · intro g hg r hr
      cases hp : r.Permissions with
      | nil => rfl
      | cons p ps =>
        exact absurd
          ((mem_collect_snd user p).2 (Or.inr ⟨g, hg, r, hr, by simp [hp]⟩)) (h _)
  · rintro ⟨h1, h2⟩ p hp
    rcases (mem_collect_snd user p).1 hp with ⟨r, hr, hin⟩ | ⟨g, hg, r, hr, hin⟩
    · simp [h1 r hr] at hin
    · simp [h2 g hg r hr] at hin

/-! ## Claims on the round trip and on the token kind -/

/-- For a user without roles the slices of `generateTokens` stay nil, the `roles` and
`permissions` claims are `null`, and `AuthMiddleware` accepts the access token leaving both keys
of the context unset. -/
theorem nil_slices_leave_keys_unset :
    (match generateTokens toyMac "k" tenApart bareUser with
      | Except.ok (access, _, _) =>
        AuthMiddleware toyMac "k" 1700000000000000100 (some (TokenString.encoded access))
      | Except.error _ => Outcome.panic)
      = Outcome.next { userID := some "7d0a", roles := none, permissions := none } := by
  decide

/-- C3: for every user and every secret, the access token that `generateTokens` issues is
accepted by `AuthMiddleware` under the same secret at every instant before the expiry it
carries. The context then holds the user's id; the role names it holds are, as a set, the names
of the user's direct roles and of the roles of the user's groups, which is also the set embedded
in the token, and likewise for the permissions. A key left unset counts as the empty set: this
happens exactly when the user has no role (respectively no permission), the slice being nil
and the claim `null`. The expiry second is taken within ±2^53, where the decoder's `float64`
is exact. -/
theorem C3_round_trip (mac : Mac) (secret : String) (clock : ClockReads) (user : User)
    (now : Int) (hlo : -(2 ^ 53) < Unix (clock.atAccessExpiry + 15 * 60 * Second))
    (hhi : Unix (clock.atAccessExpiry + 15 * 60 * Second) < 2 ^ 53)
    (h : now < Unix (clock.atAccessExpiry + 15 * 60 * Second) * Second) :
    ∃ access refresh expiresIn ctx,
      generateTokens mac secret clock user = Except.ok (access, refresh, expiresIn) ∧
      AuthMiddleware mac secret now (some (TokenString.encoded access)) = Outcome.next ctx ∧
      ctx.userID = some user.ID ∧
      (∀ n, n ∈ elems ctx.roles ↔
        (∃ r ∈ user.Roles, r.Name = n) ∨ ∃ g ∈ user.Groups, ∃ r ∈ g.Roles, r.Name = n) ∧
      (∀ p, p ∈ elems ctx.permissions ↔
        (∃ r ∈ user.Roles, p ∈ r.Permissions) ∨
          ∃ g ∈ user.Groups, ∃ r ∈ g.Roles, p ∈ r.Permissions) ∧
      elems ctx.roles = stringsOf (access.claims.lookup "roles") ∧
      elems ctx.permissions = stringsOf (access.claims.lookup "permissions") ∧
      (ctx.roles = none ↔ user.Roles = [] ∧ ∀ g ∈ user.Groups, g.Roles = []) ∧
      (ctx.permissions = none ↔
        (∀ r ∈ user.Roles, r.Permissions = []) ∧
          ∀ g ∈ user.Groups, ∀ r ∈ g.Roles, r.Permissions = []) := by
  refine ⟨_, _, _, _, generateTokens_eq mac secret clock user,
    AuthMiddleware_access mac secret clock user now hlo hhi h, rfl, ?_, ?_, ?_, ?_,
    finalRoles_eq_none user, finalPermissions_eq_none user⟩
  · intro n
    rw [finalRoles, mem_unique, mem_collect_fst]
  · intro p
    rw [finalPermissions, mem_unique, mem_collect_snd]
  · rw [accessClaims_roles, stringsOf_marshalStrings]
  · rw [accessClaims_permissions, stringsOf_marshalStrings]

/-- C3 at a user with a direct role and a group role, 100 ns after issuance. -/
theorem C3_round_trip_witness :
    (-(2 ^ 53) < Unix (tenApart.atAccessExpiry + 15 * 60 * Second) ∧
      Unix (tenApart.atAccessExpiry + 15 * 60 * Second) < 2 ^ 53 ∧
      (1700000000000000100 : Int)
        < Unix (tenApart.atAccessExpiry + 15 * 60 * Second) * Second) ∧
      ∃ access refresh expiresIn ctx,
        generateTokens toyMac "k" tenApart staffUser = Except.ok (access, refresh, expiresIn) ∧
        AuthMiddleware toyMac "k" 1700000000000000100 (some (TokenString.encoded access))
          = Outcome.next ctx ∧
        ctx.userID = some staffUser.ID ∧
        (∀ n, n ∈ elems ctx.roles ↔
          (∃ r ∈ staffUser.Roles, r.Name = n) ∨
            ∃ g ∈ staffUser.Groups, ∃ r ∈ g.Roles, r.Name = n) ∧
        (∀ p, p ∈ elems ctx.permissions ↔
          (∃ r ∈ staffUser.Roles, p ∈ r.Permissions) ∨
            ∃ g ∈ staffUser.Groups, ∃ r ∈ g.Roles, p ∈ r.Permissions) ∧
        elems ctx.roles = stringsOf (access.claims.lookup "roles") ∧
        elems ctx.permissions = stringsOf (access.claims.lookup "permissions") ∧
        (ctx.roles = none ↔ staffUser.Roles = [] ∧ ∀ g ∈ staffUser.Groups, g.Roles = []) ∧
        (ctx.permissions = none ↔
          (∀ r ∈ staffUser.Roles, r.Permissions = []) ∧
            ∀ g ∈ staffUser.Groups, ∀ r ∈ g.Roles, r.Permissions = []) :=
  ⟨⟨by decide, by decide, by decide⟩,
    C3_round_trip toyMac "k" tenApart staffUser 1700000000000000100 (by decide) (by decide)
      (by decide)⟩

/-- C4 fails on the code: `AuthMiddleware` never reads the `type` claim, so the refresh token
issued by `generateTokens`, presented as bearer token, is accepted and the request proceeds. -/
theorem C4_refresh_token_accepted :
    (match generateTokens toyMac "k" tenApart staffUser with
      | Except.ok (_, refresh, _) =>
        AuthMiddleware toyMac "k" 1700000000000000100 (some (TokenString.encoded refresh))
      | Except.error _ => Outcome.panic)
      = Outcome.next { userID := some "41c2", roles := none, permissions := none } := by
  decide


/-! ## Lemmas on `Parse` and on the two validation sites -/

theorem Parse_ok_claims (mac : Mac) (secret : String) (now : Int) (t : Token)
    (claims : MapClaims) (h : Parse mac secret now (TokenString.encoded t) = Except.ok claims) :
    claims = t.claims := by
  unfold Parse at h
  simp only at h
  split at h
  · cases h
  · split at h
    · cases h
    · split at h
      · split at h
        · cases h
        · cases h; rfl
      · cases h

theorem AuthMiddleware_of_Parse_error (mac : Mac) (secret : String) (now : Int)
    (raw : TokenString) (err : String) (h : Parse mac secret now raw = Except.error err) :
    AuthMiddleware mac secret now (some raw) = Outcome.abort 401 "Token inválido" := by
  simp [AuthMiddleware, h]

theorem RefreshToken_of_Parse_error (mac : Mac) (secret : String) (order : MapOrder)
    (store : Store) (now : Int) (clock : ClockReads) (raw : TokenString) (err : String)
    (h : Parse mac secret now raw = Except.error err) :
    (RefreshToken mac secret order store now clock raw).calls = [] ∧
      (RefreshToken mac secret order store now clock raw).result
        = Except.error "token de atualização inválido" := by
  simp [RefreshToken, h]

theorem RefreshToken_wrong_kind (mac : Mac) (secret : String) (order : MapOrder)
    (store : Store) (now : Int) (clock : ClockReads) (t : Token)
    (h : t.claims.lookup "type" ≠ some (JSON.str "refresh")) :
    (RefreshToken mac secret order store now clock (TokenString.encoded t)).calls = [] ∧
      ∃ err, (RefreshToken mac secret order store now clock (TokenString.encoded t)).result
        = Except.error err := by
  unfold RefreshToken
  split
  · exact ⟨rfl, _, rfl⟩
  · rename_i claims hparse
    have hc := Parse_ok_claims mac secret now t claims hparse
    subst hc
    split
    · split
      · rename_i tokenType htype
        by_cases hk : tokenType = "refresh"
        · exact absurd (by rw [htype, hk]) h
        · simp [hk]
      · exact ⟨rfl, _, rfl⟩
    · exact ⟨rfl, _, rfl⟩

theorem Parse_unlisted_alg (mac : Mac) (secret : String) (now : Int) (t : Token)
    (h : t.alg ∉ ["HS256", "HS384", "HS512"]) :
    ∃ err, Parse mac secret now (TokenString.encoded t) = Except.error err := by
  unfold Parse
  simp only
  cases hm : GetSigningMethod t.alg with
  | none => exact ⟨_, rfl⟩
  | some method =>
    cases method with
    | HMAC alg =>
      exfalso
      unfold GetSigningMethod at hm
      simp only [h, if_false] at hm
      split at hm
      · cases hm
      · split at hm
        · cases hm
        · split at hm
          · cases hm
          · split at hm
            · cases hm
            · split at hm
              · cases hm
              · cases hm
    | RSA alg => exact ⟨_, rfl⟩
    | RSAPSS alg => exact ⟨_, rfl⟩
    | ECDSA alg => exact ⟨_, rfl⟩
    | Ed25519 => exact ⟨_, rfl⟩
    | Unsecured => exact ⟨_, rfl⟩

theorem Parse_hmac (mac : Mac) (secret : String) (now : Int) (t : Token)
    (halg : t.alg ∈ ["HS256", "HS384", "HS512"]) (hsig : t.signature = mac t.alg secret t.claims) :
    Parse mac secret now (TokenString.encoded t)
      = (match validateClaims t.claims now with
          | Except.error err => Except.error err
          | Except.ok _ => Except.ok t.claims) := by
  simp [Parse, GetSigningMethod, halg, keyFunc, verifySignature, hsig]

theorem validateClaims_expired (claims : MapClaims) (now : Int) (q f : ℚ)
    (hexp : claims.lookup "exp" = some (JSON.num q)) (hf : float64 q = some f) (h0 : f ≠ 0)
    (hlo : -(2 : ℚ) ^ 63 ≤ f) (h : f * ((Second : Int) : ℚ) < (now : ℚ)) :
    validateClaims claims now = Except.error "token is expired" := by
  have hs : ((Second : Int) : ℚ) = 1000000000 := by norm_num [Second]
  rw [hs] at h
  have hle := newNumericDateFromSeconds_le f now hlo h
  have hnot : ¬ now < newNumericDateFromSeconds f * Second := by
    unfold Second
    omega
  unfold validateClaims parseNumericDate
  rw [hexp]
  simp [hf, h0, hnot]

theorem validateClaims_expired_int (claims : MapClaims) (now e : Int)
    (hexp : claims.lookup "exp" = some (JSON.num (e : ℚ))) (h0 : e ≠ 0)
    (hlo : -(2 ^ 53) < e) (hhi : e < 2 ^ 53) (h : e * Second ≤ now) :
    validateClaims claims now = Except.error "token is expired" := by
  unfold validateClaims
  rw [parseNumericDate_num claims "exp" e hlo hhi hexp]
  have hnot : ¬ now < e * Second := by omega
  simp [h0, hnot]

theorem Parse_of_validateClaims_error (mac : Mac) (secret : String) (now : Int) (t : Token)
    (msg : String) (h : validateClaims t.claims now = Except.error msg) :
    ∃ err, Parse mac secret now (TokenString.encoded t) = Except.error err := by
  unfold Parse
  simp only [h]
  split
  · exact ⟨_, rfl⟩
  · split
    · exact ⟨_, rfl⟩
    · split
      · exact ⟨_, rfl⟩
      · exact ⟨_, rfl⟩


/-! ## Claims on the token kind at refresh, the algorithm and the expiry -/

/-- C5: `RefreshToken` returns an error, calls neither `FindByID` nor `generateTokens`, for
every token whose `type` claim is absent, not a string or different from "refresh"; in
particular for the access token issued by `generateTokens` for any user. -/
theorem C5_wrong_kind_rejected (mac : Mac) (secret : String) (order : MapOrder)
    (store : Store) (now : Int) (clock : ClockReads) :
    (∀ t : Token, t.claims.lookup "type" ≠ some (JSON.str "refresh") →
      (RefreshToken mac secret order store now clock (TokenString.encoded t)).calls = [] ∧
        ∃ err, (RefreshToken mac secret order store now clock (TokenString.encoded t)).result
          = Except.error err) ∧
    (∀ (issuedAt : ClockReads) (user : User), ∃ access refresh expiresIn,
      generateTokens mac secret issuedAt user = Except.ok (access, refresh, expiresIn) ∧
      (RefreshToken mac secret order store now clock (TokenString.encoded access)).calls = [] ∧
        ∃ err,
          (RefreshToken mac secret order store now clock (TokenString.encoded access)).result
            = Except.error err) := by
  refine ⟨fun t h => RefreshToken_wrong_kind mac secret order store now clock t h, ?_⟩
  intro issuedAt user
  refine ⟨_, _, _, generateTokens_eq mac secret issuedAt user, ?_⟩
  apply RefreshToken_wrong_kind
  simp [accessClaims, List.lookup]

/-- C5 at a correctly signed, unexpired token of kind "access" for a stored user. -/
theorem C5_wrong_kind_rejected_witness :
    (forgedToken "HS256" "access" 1700000900).claims.lookup "type"
        ≠ some (JSON.str "refresh") ∧
      (RefreshToken toyMac "k" insertionOrder sampleStore 1700000000000000100 tenApart
          (TokenString.encoded (forgedToken "HS256" "access" 1700000900))).calls = [] ∧
      ∃ err,
        (RefreshToken toyMac "k" insertionOrder sampleStore 1700000000000000100 tenApart
          (TokenString.encoded (forgedToken "HS256" "access" 1700000900))).result
            = Except.error err :=
  ⟨by simp [forgedToken, forgedClaims, List.lookup],
    (C5_wrong_kind_rejected toyMac "k" insertionOrder sampleStore 1700000000000000100
      tenApart).1 (forgedToken "HS256" "access" 1700000900)
      (by simp [forgedToken, forgedClaims, List.lookup])⟩

/-- C6, as stated, fails: a token whose header declares HS384 and whose MAC is valid for HS384
under the configured secret is accepted by `AuthMiddleware`, and as a refresh token it makes
`RefreshToken` look the user up and issue new tokens. -/
theorem C6_hs384_accepted :
    AuthMiddleware toyMac "k" 1700000000000000100
        (some (TokenString.encoded (forgedToken "HS384" "access" 1700000900)))
      = Outcome.next { userID := some "41c2", roles := none, permissions := none } ∧
    (RefreshToken toyMac "k" insertionOrder sampleStore 1700000000000000100 tenApart
        (TokenString.encoded (forgedToken "HS384" "refresh" 1700000900))).calls
      = [Call.findByID "41c2", Call.generateTokens "41c2"] := by
  decide

/-- C6, amended: `generateTokens` signs both tokens with HS256; both validation sites reject
every token whose header algorithm is not one of HS256, HS384, HS512 (so "none", every
asymmetric scheme and every unregistered name), whatever its signature; and a token declaring
HS256, HS384 or HS512 with the MAC of that algorithm under the secret passes signature
verification, only its claims deciding the result. -/
theorem C6_hmac_family_only (mac : Mac) (secret : String) (order : MapOrder) (store : Store)
    (now : Int) (clock : ClockReads) :
    (∀ (issuedAt : ClockReads) (user : User), ∃ access refresh expiresIn,
      generateTokens mac secret issuedAt user = Except.ok (access, refresh, expiresIn) ∧
      access.alg = "HS256" ∧ refresh.alg = "HS256") ∧
    (∀ t : Token, t.alg ∉ ["HS256", "HS384", "HS512"] →
      AuthMiddleware mac secret now (some (TokenString.encoded t))
        = Outcome.abort 401 "Token inválido" ∧
      (RefreshToken mac secret order store now clock (TokenString.encoded t)).calls = [] ∧
      (RefreshToken mac secret order store now clock (TokenString.encoded t)).result
        = Except.error "token de atualização inválido") ∧
    (∀ t : Token, t.alg ∈ ["HS256", "HS384", "HS512"] →
      t.signature = mac t.alg secret t.claims →
      Parse mac secret now (TokenString.encoded t)
        = (match validateClaims t.claims now with
            | Except.error err => Except.error err
            | Except.ok _ => Except.ok t.claims)) := by
  refine ⟨?_, ?_, ?_⟩
  · intro issuedAt user
    exact ⟨_, _, _, generateTokens_eq mac secret issuedAt user, rfl, rfl⟩
  · intro t h
    obtain ⟨err, herr⟩ := Parse_unlisted_alg mac secret now t h
    exact ⟨AuthMiddleware_of_Parse_error mac secret now _ err herr,
      RefreshToken_of_Parse_error mac secret order store now clock _ err herr⟩
  · intro t halg hsig
    exact Parse_hmac mac secret now t halg hsig

/-- C6, amended, at a token declaring "none" and at a token declaring HS512. -/
theorem C6_hmac_family_only_witness :
    ((forgedToken "none" "access" 1700000900).alg ∉ ["HS256", "HS384", "HS512"] ∧
      AuthMiddleware toyMac "k" 1700000000000000100
          (some (TokenString.encoded (forgedToken "none" "access" 1700000900)))
        = Outcome.abort 401 "Token inválido") ∧
    ((forgedToken "HS512" "access" 1700000900).alg ∈ ["HS256", "HS384", "HS512"] ∧
      (forgedToken "HS512" "access" 1700000900).signature
        = toyMac (forgedToken "HS512" "access" 1700000900).alg "k"
            (forgedToken "HS512" "access" 1700000900).claims ∧
      Parse toyMac "k" 1700000000000000100
          (TokenString.encoded (forgedToken "HS512" "access" 1700000900))
        = (match validateClaims (forgedToken "HS512" "access" 1700000900).claims
              1700000000000000100 with
            | Except.error err => Except.error err
            | Except.ok _ => Except.ok (forgedToken "HS512" "access" 1700000900).claims)) :=
  ⟨⟨by decide,
      ((C6_hmac_family_only toyMac "k" insertionOrder sampleStore 1700000000000000100
        tenApart).2.1 (forgedToken "none" "access" 1700000900) (by decide)).1⟩,
    ⟨by decide, rfl,
      (C6_hmac_family_only toyMac "k" insertionOrder sampleStore 1700000000000000100
        tenApart).2.2 (forgedToken "HS512" "access" 1700000900) (by decide) rfl⟩⟩

/-- C7, as stated, fails: the JWT library reads a zero `exp` as "no expiry", so a correctly
signed token whose `exp` claim is 0 is accepted by `AuthMiddleware` and by `RefreshToken` at an
instant long after the instant 0. -/
theorem C7_zero_exp_accepted :
    AuthMiddleware toyMac "k" 1700000000000000100
        (some (TokenString.encoded (forgedToken "HS256" "access" 0)))
      = Outcome.next { userID := some "41c2", roles := none, permissions := none } ∧
    (RefreshToken toyMac "k" insertionOrder sampleStore 1700000000000000100 tenApart
        (TokenString.encoded (forgedToken "HS256" "refresh" 0))).calls
      = [Call.findByID "41c2", Call.generateTokens "41c2"] := by
  decide

/-- The expiry enforced is the one of the decoded number: 1700000900.99999999 decodes to the
`float64` 1700000901, and a correctly signed token carrying it as `exp` is still accepted 5 ns
after the written value. -/
theorem rounded_exp_accepted :
    float64 nearlyNextSecond = some 1700000901 ∧
    AuthMiddleware toyMac "k" 1700000900999999995
        (some (TokenString.encoded (forgedToken "HS256" "access" nearlyNextSecond)))
      = Outcome.next { userID := some "41c2", roles := none, permissions := none } := by
  decide

/-- C7, amended: the expiry that both validation sites enforce is the `exp` claim as the
library reads it, the number decoded to the nearest `float64`. For every token whose `exp`
decodes to a value `f` other than zero and not below the `int64` range, and every validation
instant strictly later than `f` seconds, `AuthMiddleware` answers 401 and aborts, and
`RefreshToken` returns an error without calling the store or issuing tokens. In particular,
an `exp` that is a whole number of seconds other than zero within ±2^53 decodes to itself, and
the token is rejected from the first instant of that second on. -/
theorem C7_expired_rejected (mac : Mac) (secret : String) (order : MapOrder) (store : Store)
    (now : Int) (clock : ClockReads) (t : Token) :
    (∀ q f : ℚ, t.claims.lookup "exp" = some (JSON.num q) → float64 q = some f → f ≠ 0 →
      -(2 : ℚ) ^ 63 ≤ f → f * ((Second : Int) : ℚ) < (now : ℚ) →
      AuthMiddleware mac secret now (some (TokenString.encoded t))
        = Outcome.abort 401 "Token inválido" ∧
      (RefreshToken mac secret order store now clock (TokenString.encoded t)).calls = [] ∧
      (RefreshToken mac secret order store now clock (TokenString.encoded t)).result
        = Except.error "token de atualização inválido") ∧
    (∀ e : Int, t.claims.lookup "exp" = some (JSON.num (e : ℚ)) → e ≠ 0 →
      -(2 ^ 53) < e → e < 2 ^ 53 → e * Second ≤ now →
      AuthMiddleware mac secret now (some (TokenString.encoded t))
        = Outcome.abort 401 "Token inválido" ∧
      (RefreshToken mac secret order store now clock (TokenString.encoded t)).calls = [] ∧
      (RefreshToken mac secret order store now clock (TokenString.encoded t)).result
        = Except.error "token de atualização inválido") := by
  refine ⟨?_, ?_⟩
  · intro q f hexp hf h0 hlo h
    obtain ⟨err, herr⟩ := Parse_of_validateClaims_error mac secret now t _
      (validateClaims_expired t.claims now q f hexp hf h0 hlo h)
    exact ⟨AuthMiddleware_of_Parse_error mac secret now _ err herr,
      RefreshToken_of_Parse_error mac secret order store now clock _ err herr⟩
  · intro e hexp h0 hlo hhi h
    obtain ⟨err, herr⟩ := Parse_of_validateClaims_error mac secret now t _
      (validateClaims_expired_int t.claims now e hexp h0 hlo hhi h)
    exact ⟨AuthMiddleware_of_Parse_error mac secret now _ err herr,
      RefreshToken_of_Parse_error mac secret order store now clock _ err herr⟩

/-- C7, amended, at a correctly signed refresh token whose `exp` 1700000900.99999999 decodes to
1700000901, one nanosecond after that second, and at one whose `exp` is 1700000900, at the
first instant of that second. -/
theorem C7_expired_rejected_witness :
    ((forgedToken "HS256" "refresh" nearlyNextSecond).claims.lookup "exp"
        = some (JSON.num nearlyNextSecond) ∧
      float64 nearlyNextSecond = some 1700000901 ∧
      (1700000901 : ℚ) ≠ 0 ∧
      -(2 : ℚ) ^ 63 ≤ 1700000901 ∧
      (1700000901 : ℚ) * ((Second : Int) : ℚ) < ((1700000901000000001 : Int) : ℚ) ∧
      AuthMiddleware toyMac "k" 1700000901000000001
          (some (TokenString.encoded (forgedToken "HS256" "refresh" nearlyNextSecond)))
        = Outcome.abort 401 "Token inválido" ∧
      (RefreshToken toyMac "k" insertionOrder sampleStore 1700000901000000001 tenApart
          (TokenString.encoded (forgedToken "HS256" "refresh" nearlyNextSecond))).calls = [] ∧
      (RefreshToken toyMac "k" insertionOrder sampleStore 1700000901000000001 tenApart
          (TokenString.encoded (forgedToken "HS256" "refresh" nearlyNextSecond))).result
        = Except.error "token de atualização inválido") ∧
    ((forgedToken "HS256" "refresh" 1700000900).claims.lookup "exp"
        = some (JSON.num ((1700000900 : Int) : ℚ)) ∧
      (1700000900 : Int) ≠ 0 ∧ -(2 ^ 53) < (1700000900 : Int) ∧ (1700000900 : Int) < 2 ^ 53 ∧
      (1700000900 : Int) * Second ≤ 1700000900000000000 ∧
      AuthMiddleware toyMac "k" 1700000900000000000
          (some (TokenString.encoded (forgedToken "HS256" "refresh" 1700000900)))
        = Outcome.abort 401 "Token inválido" ∧
      (RefreshToken toyMac "k" insertionOrder sampleStore 1700000900000000000 tenApart
          (TokenString.encoded (forgedToken "HS256" "refresh" 1700000900))).calls = [] ∧
      (RefreshToken toyMac "k" insertionOrder sampleStore 1700000900000000000 tenApart
          (TokenString.encoded (forgedToken "HS256" "refresh" 1700000900))).result
        = Except.error "token de atualização inválido") :=
  ⟨⟨rfl, by decide, by norm_num, by norm_num, by norm_num [Second],
      (C7_expired_rejected toyMac "k" insertionOrder sampleStore 1700000901000000001 tenApart
        (forgedToken "HS256" "refresh" nearlyNextSecond)).1 nearlyNextSecond 1700000901 rfl
        (by decide) (by norm_num) (by norm_num) (by norm_num [Second])⟩,
    ⟨by simp [forgedToken, forgedClaims, List.lookup], by decide, by decide, by decide,
      by decide,
      (C7_expired_rejected toyMac "k" insertionOrder sampleStore 1700000900000000000 tenApart
        (forgedToken "HS256" "refresh" 1700000900)).2 1700000900
        (by simp [forgedToken, forgedClaims, List.lookup]) (by decide) (by decide) (by decide)
        (by decide)⟩⟩


/-! ## Claims on the empty secret, the refresh claims and the reported lifetime -/

/-- C8, as stated, fails: with the empty string as secret `generateTokens` returns no error
and both tokens. -/
theorem C8_empty_secret_signs :
    (generateTokens toyMac "" tenApart staffUser).toBool = true := by
  decide

/-- C8, amended: `generateTokens` never inspects the secret; for every user and every secret,
the empty string included, it returns no error and two tokens carrying the HS256 MAC of their
claims under that secret. -/
theorem C8_any_secret_signs (mac : Mac) (clock : ClockReads) (user : User) :
    (∀ secret : String, ∃ access refresh expiresIn,
      generateTokens mac secret clock user = Except.ok (access, refresh, expiresIn) ∧
      access.signature = mac "HS256" secret access.claims ∧
      refresh.signature = mac "HS256" secret refresh.claims) ∧
    ∃ access refresh expiresIn,
      generateTokens mac "" clock user = Except.ok (access, refresh, expiresIn) := by
  refine ⟨fun secret => ⟨_, _, _, generateTokens_eq mac secret clock user, rfl, rfl⟩, ?_⟩
  exact ⟨_, _, _, generateTokens_eq mac "" clock user⟩

/-- C9: the claims of the refresh token built by `generateTokens` are exactly the four entries
`sub` (the user's id), `exp`, `iat` and `type` = "refresh"; `exp` is the Unix second of the
clock read from which the expiry is computed plus 604800; there is no `roles` and no
`permissions` entry. -/
theorem C9_refresh_claims (mac : Mac) (secret : String) (clock : ClockReads) (user : User) :
    ∃ access refresh expiresIn,
      generateTokens mac secret clock user = Except.ok (access, refresh, expiresIn) ∧
      refresh.claims.map Prod.fst = ["sub", "exp", "iat", "type"] ∧
      refresh.claims.lookup "sub" = some (JSON.str user.ID) ∧
      refresh.claims.lookup "exp"
        = some (JSON.num ((Unix clock.atRefreshExpiry + 604800 : Int) : ℚ)) ∧
      refresh.claims.lookup "iat" = some (JSON.num ((Unix clock.atRefreshIat : Int) : ℚ)) ∧
      refresh.claims.lookup "type" = some (JSON.str "refresh") ∧
      refresh.claims.lookup "roles" = none ∧
      refresh.claims.lookup "permissions" = none := by
  have hexp : Unix (clock.atRefreshExpiry + 7 * 24 * 3600 * Second)
      = Unix clock.atRefreshExpiry + 604800 := by
    have := Unix_add_seconds clock.atRefreshExpiry 604800
    simpa using this
  refine ⟨_, _, _, generateTokens_eq mac secret clock user, ?_, ?_, ?_, ?_, ?_, ?_, ?_⟩
  · simp [refreshClaims]
  · simp [refreshClaims, List.lookup]
  · simp only [refreshClaims, hexp]
    simp [List.lookup]
  · simp [refreshClaims, List.lookup]
  · simp [refreshClaims, List.lookup]
  · simp [refreshClaims, List.lookup]
  · simp [refreshClaims, List.lookup]

theorem truncSeconds_lt (d : Int) (h0 : 0 ≤ d) (h : d < 900 * Second) :
    truncSeconds d < 900 := by
  unfold truncSeconds
  rw [Int.tdiv_eq_ediv h0 (by decide)]
  exact Int.ediv_lt_of_lt_mul (by decide) h

/-- The reported lifetime always falls short of 900 as soon as the clock has advanced, by
however little, between the read of line 296 and the read of line 298. -/
theorem expiresIn_short (mac : Mac) (secret : String) (clock : ClockReads) (user : User)
    (h1 : clock.atAccessExpiry < clock.atExpiresIn)
    (h2 : clock.atExpiresIn ≤ clock.atAccessExpiry + 15 * 60 * Second) :
    ∃ access refresh expiresIn,
      generateTokens mac secret clock user = Except.ok (access, refresh, expiresIn) ∧
      expiresIn < 900 := by
  refine ⟨_, _, _, generateTokens_eq mac secret clock user, ?_⟩
  apply truncSeconds_lt
  · omega
  · have : (15 : Int) * 60 * Second = 900 * Second := by decide
    omega

/-- C10 fails on the code: with clock reads 20 ns apart, `exp` lies exactly 900 s after the
second of the read it is computed from, while the returned `expiresIn`, computed from a later
read, is 899. -/
theorem C10_expiresIn_is_899 :
    (generateTokens toyMac "k" tenApart staffUser).toOption.map (fun r => r.2.2) = some 899 ∧
    Unix (tenApart.atAccessExpiry + 15 * 60 * Second) - Unix tenApart.atAccessExpiry = 900 := by
  decide


/-! ## Lemmas on the first login -/

theorem defaultRoleStep_shape (acc : Store × List (String × Role)) (d : Role) :
    ∃ (r : Role) (store1 : Store),
      defaultRoleStep acc d = (store1, (d.Name, r) :: acc.2) ∧ r.Name = d.Name ∧
        store1.users = acc.1.users := by
  unfold defaultRoleStep
  cases h : acc.1.roles.find? (fun r => decide (r.Name = d.Name)) with
  | some role =>
    have hr : role.Name = d.Name := by simpa using List.find?_some h
    exact ⟨role, acc.1, by simp [hr], hr, rfl⟩
  | none => exact ⟨d, _, rfl, rfl, rfl⟩

theorem defaultRoles_shape (store : Store) :
    ∃ (ra ru : Role) (store1 : Store),
      GetDefaultRoles.foldl defaultRoleStep (store, []) = (store1, [("user", ru), ("admin", ra)]) ∧
      ra.Name = "admin" ∧ ru.Name = "user" ∧ store1.users = store.users := by
  obtain ⟨ra, s1, h1, hra, hs1⟩ :=
    defaultRoleStep_shape (store, [])
      { Name := RoleAdmin, Permissions := ["users:read", "users:write", "groups:read",
        "groups:write", "roles:read", "roles:write"] }
  obtain ⟨ru, s2, h2, hru, hs2⟩ :=
    defaultRoleStep_shape (s1, [(RoleAdmin, ra)])
      { Name := RoleUser, Permissions := ["profile:read"] }
  refine ⟨ra, ru, s2, ?_, hra, hru, by rw [hs2, hs1]⟩
  simp only [GetDefaultRoles, List.foldl]
  rw [h1]
  exact h2

theorem FindOrCreateDefaultRoles_ok (faults : Faults) (store : Store)
    (h : faults.findOrCreateDefaultRoles = none) :
    ∃ (ra ru : Role) (store1 : Store),
      FindOrCreateDefaultRoles faults store
        = (store1, Except.ok [("user", ru), ("admin", ra)]) ∧
      ra.Name = "admin" ∧ ru.Name = "user" ∧ store1.users = store.users := by
  obtain ⟨ra, ru, store1, hf, hra, hru, hus⟩ := defaultRoles_shape store
  refine ⟨ra, ru, store1, ?_, hra, hru, hus⟩
  simp [FindOrCreateDefaultRoles, h, hf]

theorem roleAt_admin (ra ru : Role) : roleAt [("user", ru), ("admin", ra)] RoleAdmin = ra := by
  simp [roleAt, List.lookup, RoleAdmin]

theorem roleAt_user (ra ru : Role) : roleAt [("user", ru), ("admin", ra)] RoleUser = ru := by
  simp [roleAt, List.lookup, RoleUser]


theorem existingUsers_length (faults : Faults) (store : Store) :
    ((match ListAll faults store with
      | Except.ok users => users
      | Except.error _ => []).length = 0) ↔ (faults.listAll ≠ none ∨ store.users = []) := by
  unfold ListAll
  cases h : faults.listAll with
  | some err => simp
  | none => simp

theorem ProcessGoogleCallback_first (mac : Mac) (secret : String) (order : MapOrder)
    (faults : Faults) (newID : String) (clock : ClockReads) (store : Store)
    (userInfo : GoogleUserInfo)
    (hf1 : faults.findByGoogleID = none) (hf2 : faults.findOrCreateDefaultRoles = none)
    (hf3 : faults.create = none)
    (hnew : store.users.find? (fun u => decide (u.GoogleID = userInfo.ID)) = none) :
    ∃ role : Role,
      role.Name = (if faults.listAll ≠ none ∨ store.users = [] then "admin" else "user") ∧
      (ProcessGoogleCallback mac secret order faults newID clock store
          (Except.ok userInfo)).store.users
        = store.users ++ [newUser newID userInfo role] ∧
      (ProcessGoogleCallback mac secret order faults newID clock store
          (Except.ok userInfo)).calls
        = [LoginCall.findByGoogleID userInfo.ID, LoginCall.findOrCreateDefaultRoles,
            LoginCall.listAll, LoginCall.create (newUser uuidNil userInfo role)] ∧
      (ProcessGoogleCallback mac secret order faults newID clock store
          (Except.ok userInfo)).result
        = respond mac secret order clock (newUser newID userInfo role) := by
  obtain ⟨ra, ru, store1, hd, hra, hru, hus⟩ := FindOrCreateDefaultRoles_ok faults store hf2
  have hlen := existingUsers_length faults store1
  rw [hus] at hlen
  by_cases hc : faults.listAll ≠ none ∨ store.users = []
  · refine ⟨ra, by simp [hc, hra], ?_⟩
    have hl := hlen.2 hc
    simp only [ProcessGoogleCallback, FindByGoogleID, hf1, hnew, hd, hl, if_true, Create, hf3,
      roleAt_admin, newUser, hus]
    simp
  · refine ⟨ru, by simp [hc, hru], ?_⟩
    have hl : ¬ ((match ListAll faults store1 with
      | Except.ok users => users
      | Except.error _ => []).length = 0) := fun h => hc (hlen.1 h)
    simp only [ProcessGoogleCallback, FindByGoogleID, hf1, hnew, hd, hl, if_false, Create, hf3,
      roleAt_user, newUser, hus]
    simp


theorem respond_eq (mac : Mac) (secret : String) (order : MapOrder) (clock : ClockReads)
    (user : User) :
    respond mac secret order clock user = Except.ok
      { User := userResponse order user,
        AccessToken := { alg := "HS256", claims := accessClaims clock user,
                         signature := mac "HS256" secret (accessClaims clock user) },
        RefreshToken := { alg := "HS256", claims := refreshClaims clock user,
                          signature := mac "HS256" secret (refreshClaims clock user) },
        ExpiresIn := truncSeconds (clock.atAccessExpiry + 15 * 60 * Second - clock.atExpiresIn) } :=
  rfl

theorem created_roles (mac : Mac) (secret : String) (order : MapOrder) (faults : Faults)
    (newID : String) (clock : ClockReads) (store : Store)
    (federation : Except String GoogleUserInfo) (user : User)
    (h : LoginCall.create user
      ∈ (ProcessGoogleCallback mac secret order faults newID clock store federation).calls) :
    user.Roles.map (fun r => r.Name)
      = if faults.listAll ≠ none ∨ store.users = [] then ["admin"] else ["user"] := by
  cases federation with
  | error err => simp [ProcessGoogleCallback] at h
  | ok userInfo =>
    cases hfind : FindByGoogleID faults store userInfo.ID with
    | error err => simp [ProcessGoogleCallback, hfind] at h
    | ok found =>
      cases hf2 : faults.findOrCreateDefaultRoles with
      | some err =>
        simp [ProcessGoogleCallback, hfind, FindOrCreateDefaultRoles, hf2] at h
      | none =>
        obtain ⟨ra, ru, store1, hd, hra, hru, hus⟩ :=
          FindOrCreateDefaultRoles_ok faults store hf2
        cases found with
        | some existing =>
          cases hup : Update faults store1
              { existing with Email := userInfo.Email, Name := userInfo.Name,
                              Picture := userInfo.Picture } with
          | mk store2 res =>
            cases res <;> simp [ProcessGoogleCallback, hfind, hd, hup] at h
        | none =>
          have hlen := existingUsers_length faults store1
          rw [hus] at hlen
          by_cases hc : faults.listAll ≠ none ∨ store.users = []
          · have hl := hlen.2 hc
            cases hcr : faults.create <;>
              simp [ProcessGoogleCallback, hfind, hd, hl, Create, hcr, roleAt_admin] at h <;>
              simp [h, hc, hra]
          · have hl : ¬ ((match ListAll faults store1 with
              | Except.ok users => users
              | Except.error _ => []).length = 0) := fun h => hc (hlen.1 h)
            cases hcr : faults.create <;>
              simp [ProcessGoogleCallback, hfind, hd, hl, Create, hcr, roleAt_user] at h <;>
              simp [h, hc, hru]

/-! ## Claims on the bootstrap rule -/

/-- C11: from a store without users, three first logins with distinct subject ids in which
every database call succeeds create three users whose direct roles are named "admin",
"user", "user" in that order; and whenever the user listing does not fail, the record handed
to `Create` has exactly the role "admin" if the store holds no user and exactly the role
"user" otherwise. -/
theorem C11_bootstrap (mac : Mac) (secret : String) (order : MapOrder) :
    (∀ (roles : List Role) (i1 i2 i3 : GoogleUserInfo) (n1 n2 n3 : String)
        (c1 c2 c3 : ClockReads),
      i1.ID ≠ i2.ID → i1.ID ≠ i3.ID → i2.ID ≠ i3.ID →
      ∃ (r1 r2 r3 : Role) (w1 w2 w3 : UserWithToken),
        (ProcessGoogleCallback mac secret order noFaults n1 c1
          { users := [], roles := roles } (Except.ok i1)).result = Except.ok w1 ∧
        (ProcessGoogleCallback mac secret order noFaults n2 c2
          (ProcessGoogleCallback mac secret order noFaults n1 c1
            { users := [], roles := roles } (Except.ok i1)).store (Except.ok i2)).result
          = Except.ok w2 ∧
        (ProcessGoogleCallback mac secret order noFaults n3 c3
          (ProcessGoogleCallback mac secret order noFaults n2 c2
            (ProcessGoogleCallback mac secret order noFaults n1 c1
              { users := [], roles := roles } (Except.ok i1)).store (Except.ok i2)).store
          (Except.ok i3)).result = Except.ok w3 ∧
        (ProcessGoogleCallback mac secret order noFaults n3 c3
          (ProcessGoogleCallback mac secret order noFaults n2 c2
            (ProcessGoogleCallback mac secret order noFaults n1 c1
              { users := [], roles := roles } (Except.ok i1)).store (Except.ok i2)).store
          (Except.ok i3)).store.users
          = [newUser n1 i1 r1, newUser n2 i2 r2, newUser n3 i3 r3] ∧
        r1.Name = "admin" ∧ r2.Name = "user" ∧ r3.Name = "user") ∧
    (∀ (faults : Faults) (newID : String) (clock : ClockReads) (store : Store)
        (federation : Except String GoogleUserInfo) (user : User),
      faults.listAll = none →
      LoginCall.create user
        ∈ (ProcessGoogleCallback mac secret order faults newID clock store federation).calls →
      user.Roles.map (fun r => r.Name) = if store.users = [] then ["admin"] else ["user"]) := by
  refine ⟨?_, ?_⟩
  · intro roles i1 i2 i3 n1 n2 n3 c1 c2 c3 h12 h13 h23
    obtain ⟨r1, hr1, hs1, -, hres1⟩ :=
      ProcessGoogleCallback_first mac secret order noFaults n1 c1
        { users := [], roles := roles } i1 rfl rfl rfl rfl
    have hn2 : (ProcessGoogleCallback mac secret order noFaults n1 c1
        { users := [], roles := roles } (Except.ok i1)).store.users.find?
        (fun u => decide (u.GoogleID = i2.ID)) = none := by
      rw [hs1]
      simp [newUser, h12]
    obtain ⟨r2, hr2, hs2, -, hres2⟩ :=
      ProcessGoogleCallback_first mac secret order noFaults n2 c2 _ i2 rfl rfl rfl hn2
    have hn3 : (ProcessGoogleCallback mac secret order noFaults n2 c2
        (ProcessGoogleCallback mac secret order noFaults n1 c1
          { users := [], roles := roles } (Except.ok i1)).store
        (Except.ok i2)).store.users.find?
        (fun u => decide (u.GoogleID = i3.ID)) = none := by
      rw [hs2, hs1]
      simp [newUser, h13, h23]
    obtain ⟨r3, hr3, hs3, -, hres3⟩ :=
      ProcessGoogleCallback_first mac secret order noFaults n3 c3 _ i3 rfl rfl rfl hn3
    refine ⟨r1, r2, r3, _, _, _, hres1.trans (respond_eq _ _ _ _ _),
      hres2.trans (respond_eq _ _ _ _ _), hres3.trans (respond_eq _ _ _ _ _), ?_, ?_, ?_, ?_⟩
    · rw [hs3, hs2, hs1]
      rfl
    · simpa using hr1
    · rw [hs1] at hr2
      simpa [noFaults] using hr2
    · rw [hs2, hs1] at hr3
      simpa [noFaults] using hr3
  · intro faults newID clock store federation user hl h
    have := created_roles mac secret order faults newID clock store federation user h
    simpa [hl] using this


/-- C11 at three logins of subjects "g-a", "g-b", "g-c" into an empty store, and at the first
login of "g-new" into a store that already holds two users. -/
theorem C11_bootstrap_witness :
    ((profileOf "g-a").ID ≠ (profileOf "g-b").ID ∧ (profileOf "g-a").ID ≠ (profileOf "g-c").ID ∧
      (profileOf "g-b").ID ≠ (profileOf "g-c").ID) ∧
    ((ProcessGoogleCallback toyMac "k" insertionOrder noFaults "id-3" tenApart
        (ProcessGoogleCallback toyMac "k" insertionOrder noFaults "id-2" tenApart
          (ProcessGoogleCallback toyMac "k" insertionOrder noFaults "id-1" tenApart
            { users := [], roles := [] } (Except.ok (profileOf "g-a"))).store
          (Except.ok (profileOf "g-b"))).store
        (Except.ok (profileOf "g-c"))).store.users.map
        (fun u => (u.GoogleID, u.Roles.map (fun r => r.Name)))
      = [("g-a", ["admin"]), ("g-b", ["user"]), ("g-c", ["user"])]) ∧
    (noFaults.listAll = none ∧
      LoginCall.create (newUser uuidNil (profileOf "g-new")
          { Name := "user", Permissions := ["profile:read"] })
        ∈ (ProcessGoogleCallback toyMac "k" insertionOrder noFaults "id-9" tenApart sampleStore
            (Except.ok (profileOf "g-new"))).calls ∧
      (newUser uuidNil (profileOf "g-new")
          { Name := "user", Permissions := ["profile:read"] }).Roles.map (fun r => r.Name)
        = if sampleStore.users = [] then ["admin"] else ["user"]) := by
  refine ⟨⟨by decide, by decide, by decide⟩, ?_, rfl, by decide, ?_⟩
  · obtain ⟨r1, r2, r3, w1, w2, w3, -, -, -, hs, h1, h2, h3⟩ :=
      (C11_bootstrap toyMac "k" insertionOrder).1 [] (profileOf "g-a") (profileOf "g-b")
        (profileOf "g-c") "id-1" "id-2" "id-3" tenApart tenApart tenApart
        (by decide) (by decide) (by decide)
    rw [hs]
    simp [newUser, profileOf, h1, h2, h3]
  · exact (C11_bootstrap toyMac "k" insertionOrder).2 noFaults "id-9" tenApart sampleStore
      (Except.ok (profileOf "g-new")) _ rfl (by decide)


/-! ## Lemmas on the login of an existing user -/

/-- The record that `ProcessGoogleCallback` hands to `Update` for the stored user `stored`. -/
theorem updated_record (mac : Mac) (secret : String) (order : MapOrder) (faults : Faults)
    (newID : String) (clock : ClockReads) (store : Store) (userInfo : GoogleUserInfo)
    (saved : User)
    (h : LoginCall.update saved
      ∈ (ProcessGoogleCallback mac secret order faults newID clock store
          (Except.ok userInfo)).calls) :
    ∃ stored, store.users.find? (fun u => decide (u.GoogleID = userInfo.ID)) = some stored ∧
      saved = { stored with
        Groups := stored.Groups.map withoutRoles, Email := userInfo.Email,
        Name := userInfo.Name, Picture := userInfo.Picture } := by
  cases hf1 : faults.findByGoogleID with
  | some err => simp [ProcessGoogleCallback, FindByGoogleID, hf1] at h
  | none =>
    cases hf2 : faults.findOrCreateDefaultRoles with
    | some err =>
      cases hfound : store.users.find? (fun u => decide (u.GoogleID = userInfo.ID)) <;>
        simp [ProcessGoogleCallback, FindByGoogleID, hf1, hfound, FindOrCreateDefaultRoles,
          hf2] at h
    | none =>
      obtain ⟨ra, ru, store1, hd, -, -, -⟩ := FindOrCreateDefaultRoles_ok faults store hf2
      cases hfound : store.users.find? (fun u => decide (u.GoogleID = userInfo.ID)) with
      | none =>
        cases hcr : faults.create <;>
          simp [ProcessGoogleCallback, FindByGoogleID, hf1, hfound, hd, Create, hcr] at h
      | some stored =>
        refine ⟨stored, rfl, ?_⟩
        cases hup : faults.update <;>
          simp [ProcessGoogleCallback, FindByGoogleID, hf1, hfound, hd, Update, hup] at h <;>
          exact h

theorem filter_known_names {α : Type} (name : α → String) (xs ys : List α)
    (h : ∀ y ∈ ys, name y ∈ xs.map name) :
    ys.filter (fun y => decide (name y ∉ xs.map name)) = [] := by
  rw [List.filter_eq_nil_iff]
  intro y hy
  simpa using h y hy

theorem saveInto_found (stored : User) (userInfo : GoogleUserInfo) :
    saveInto
        { stored with
          Groups := stored.Groups.map withoutRoles, Email := userInfo.Email,
          Name := userInfo.Name, Picture := userInfo.Picture } stored
      = { stored with
          Email := userInfo.Email, Name := userInfo.Name, Picture := userInfo.Picture } := by
  have h1 : stored.Roles.filter
      (fun r => decide (r.Name ∉ stored.Roles.map (fun x => x.Name))) = [] :=
    filter_known_names (fun r : Role => r.Name) stored.Roles stored.Roles
      (fun y hy => List.mem_map_of_mem _ hy)
  have h2 : (stored.Groups.map withoutRoles).filter
      (fun g => decide (g.Name ∉ stored.Groups.map (fun x => x.Name))) = [] := by
    apply filter_known_names (fun g : Group => g.Name)
    intro y hy
    obtain ⟨g, hg, rfl⟩ := List.mem_map.1 hy
    show g.Name ∈ stored.Groups.map (fun x : Group => x.Name)
    exact List.mem_map_of_mem (fun x : Group => x.Name) hg
  simp only [saveInto, ↓reduceIte, h1, h2, List.append_nil]

theorem saveInto_other (saved u : User) (h : u.ID ≠ saved.ID) : saveInto saved u = u := by
  simp [saveInto, h]

/-! ## Claims on the login of an existing user -/

/-- C12: when `ProcessGoogleCallback` finds a stored user for the subject id, the record it
hands to `Update` has the provider's Email, Name and Picture and the stored ID, GoogleID,
direct roles and groups (by name); saving it changes, in the stored record, only Email, Name
and Picture, and leaves every user with another id as it was. -/
theorem C12_only_profile_overwritten (mac : Mac) (secret : String) (order : MapOrder)
    (faults : Faults) (newID : String) (clock : ClockReads) (store : Store)
    (userInfo : GoogleUserInfo) (saved : User)
    (h : LoginCall.update saved
      ∈ (ProcessGoogleCallback mac secret order faults newID clock store
          (Except.ok userInfo)).calls) :
    ∃ stored, store.users.find? (fun u => decide (u.GoogleID = userInfo.ID)) = some stored ∧
      saved.Email = userInfo.Email ∧ saved.Name = userInfo.Name ∧
      saved.Picture = userInfo.Picture ∧
      saved.ID = stored.ID ∧ saved.GoogleID = stored.GoogleID ∧ saved.Roles = stored.Roles ∧
      saved.Groups.map (fun g => g.Name) = stored.Groups.map (fun g => g.Name) ∧
      saveInto saved stored
        = { stored with
            Email := userInfo.Email, Name := userInfo.Name, Picture := userInfo.Picture } ∧
      (∀ u : User, u.ID ≠ stored.ID → saveInto saved u = u) ∧
      (faults.update = none →
        (ProcessGoogleCallback mac secret order faults newID clock store
          (Except.ok userInfo)).store.users = store.users.map (saveInto saved)) := by
  obtain ⟨stored, hfound, hs⟩ :=
    updated_record mac secret order faults newID clock store userInfo saved h
  subst hs
  refine ⟨stored, hfound, rfl, rfl, rfl, rfl, rfl, rfl, ?_, saveInto_found stored userInfo,
    fun u hu => saveInto_other _ u hu, ?_⟩
  · simp [withoutRoles, Function.comp_def]
  · intro hup
    cases hf1 : faults.findByGoogleID with
    | some err => simp [ProcessGoogleCallback, FindByGoogleID, hf1] at h
    | none =>
      cases hf2 : faults.findOrCreateDefaultRoles with
      | some err =>
        simp [ProcessGoogleCallback, FindByGoogleID, hf1, hfound, FindOrCreateDefaultRoles,
          hf2] at h
      | none =>
        obtain ⟨ra, ru, store1, hd, -, -, hus⟩ := FindOrCreateDefaultRoles_ok faults store hf2
        simp [ProcessGoogleCallback, FindByGoogleID, hf1, hfound, hd, Update, hup, hus]

/-- C12 at the login of the stored user `staffUser` with a changed profile. -/
theorem C12_only_profile_overwritten_witness :
    LoginCall.update
        { staffUser with
          Groups := [{ Name := "staff", Roles := [] }], Email := "new@example.org",
          Name := "Robert", Picture := "p.png" }
      ∈ (ProcessGoogleCallback toyMac "k" insertionOrder noFaults "id-9" tenApart sampleStore
          (Except.ok { ID := "g-2", Email := "new@example.org", Name := "Robert",
                       Picture := "p.png" })).calls ∧
    ∃ stored,
      sampleStore.users.find? (fun u => decide (u.GoogleID = "g-2")) = some stored ∧
      saveInto
          { staffUser with
            Groups := [{ Name := "staff", Roles := [] }], Email := "new@example.org",
            Name := "Robert", Picture := "p.png" } stored
        = { stored with Email := "new@example.org", Name := "Robert", Picture := "p.png" } := by
  refine ⟨by decide, ?_⟩
  obtain ⟨stored, h1, -, -, -, -, -, -, -, h2, -⟩ :=
    C12_only_profile_overwritten toyMac "k" insertionOrder noFaults "id-9" tenApart sampleStore
      { ID := "g-2", Email := "new@example.org", Name := "Robert", Picture := "p.png" }
      { staffUser with
        Groups := [{ Name := "staff", Roles := [] }], Email := "new@example.org",
        Name := "Robert", Picture := "p.png" } (by decide)
  exact ⟨stored, h1, h2⟩


/-! ## Lemmas on the user summary -/

theorem mem_mapSet (m : List String) (k y : String) : y ∈ mapSet m k ↔ y ∈ m ∨ y = k := by
  unfold mapSet
  by_cases h : k ∈ m
  · simp only [h, if_true]
    constructor
    · exact Or.inl
    · rintro (hy | hy)
      · exact hy
      · subst hy; exact h
  · simp [h]

theorem nodup_mapSet (m : List String) (k : String) (h : m.Nodup) : (mapSet m k).Nodup := by
  unfold mapSet
  by_cases hk : k ∈ m
  · simpa [hk] using h
  · simp only [hk, if_false]
    exact List.Nodup.append h (List.nodup_singleton k) (by simpa using hk)

theorem foldl_mapSet (xs : List String) (m : List String) (h : m.Nodup) :
    (xs.foldl mapSet m).Nodup ∧ ∀ y, y ∈ xs.foldl mapSet m ↔ y ∈ m ∨ y ∈ xs := by
  induction xs generalizing m with
  | nil => simp [h]
  | cons x xs ih =>
    obtain ⟨hn, hm⟩ := ih (mapSet m x) (nodup_mapSet m x h)
    refine ⟨hn, ?_⟩
    intro y
    simp only [List.foldl, hm y, mem_mapSet, List.mem_cons]
    tauto

theorem foldl_markRole (rs : List Role) (acc : List String × List String) :
    rs.foldl markRole acc
      = ((rs.map (fun r => r.Name)).foldl mapSet acc.1,
         ((rs.map (fun r => r.Permissions)).flatten).foldl mapSet acc.2) := by
  induction rs generalizing acc with
  | nil => simp
  | cons r rs ih => simp [List.foldl, ih, markRole, List.foldl_append]

theorem foldl_markGroups (gs : List Group) (acc : List String × List String) :
    gs.foldl (fun acc group => group.Roles.foldl markRole acc) acc
      = (((gs.map (fun g => g.Roles.map (fun r => r.Name))).flatten).foldl mapSet acc.1,
         ((gs.map (fun g => (g.Roles.map (fun r => r.Permissions)).flatten)).flatten).foldl
            mapSet acc.2) := by
  induction gs generalizing acc with
  | nil => simp
  | cons g gs ih =>
    simp only [List.foldl_cons]
    rw [ih, foldl_markRole]
    simp [List.foldl_append]

theorem markAll_eq (user : User) :
    markAll user = ((collect user).1.foldl mapSet [], (collect user).2.foldl mapSet []) := by
  unfold markAll
  rw [foldl_markGroups, foldl_markRole]
  simp [collect, foldl_groups_fst, foldl_groups_snd, foldl_collectRole_fst,
    foldl_collectRole_snd, List.foldl_append]

theorem mem_summary_roles (order : MapOrder) (user : User) (n : String) :
    n ∈ (userResponse order user).Roles ↔ n ∈ elems (finalRoles user) := by
  have h := (foldl_mapSet (collect user).1 [] List.nodup_nil).2 n
  simp only [userResponse, (order.perm _).mem_iff, markAll_eq, finalRoles, mem_unique]
  simpa using h

theorem mem_summary_permissions (order : MapOrder) (user : User) (p : String) :
    p ∈ (userResponse order user).Permissions ↔ p ∈ elems (finalPermissions user) := by
  have h := (foldl_mapSet (collect user).2 [] List.nodup_nil).2 p
  simp only [userResponse, (order.perm _).mem_iff, markAll_eq, finalPermissions, mem_unique]
  simpa using h

theorem nodup_summary (order : MapOrder) (user : User) :
    (userResponse order user).Roles.Nodup ∧ (userResponse order user).Permissions.Nodup := by
  simp only [userResponse, markAll_eq]
  exact ⟨(order.perm _).nodup_iff.2 (foldl_mapSet _ [] List.nodup_nil).1,
    (order.perm _).nodup_iff.2 (foldl_mapSet _ [] List.nodup_nil).1⟩

/-! ## Lemmas on a valid refresh -/

theorem find_of_mem (users : List User) (user : User)
    (hkey : (users.map (fun u => u.ID)).Nodup) (hmem : user ∈ users) :
    users.find? (fun u => decide (u.ID = user.ID)) = some user := by
  induction users with
  | nil => cases hmem
  | cons u us ih =>
    rw [List.map_cons, List.nodup_cons] at hkey
    rcases List.mem_cons.1 hmem with h | h
    · subst h
      simp
    · have hne : u.ID ≠ user.ID := by
        intro heq
        exact hkey.1 (heq ▸ List.mem_map_of_mem (fun u => u.ID) h)
      rw [List.find?_cons_of_neg _ (by simpa using hne)]
      exact ih hkey.2 h

theorem FindByID_of_mem (store : Store) (user : User)
    (hkey : (store.users.map (fun u => u.ID)).Nodup) (hmem : user ∈ store.users) :
    FindByID store user.ID = Except.ok user := by
  unfold FindByID
  rw [find_of_mem store.users user hkey hmem]

theorem FindByID_of_not_mem (store : Store) (id : String)
    (h : ∀ u ∈ store.users, u.ID ≠ id) : FindByID store id = Except.error "record not found" := by
  unfold FindByID
  have : store.users.find? (fun u => decide (u.ID = id)) = none := by
    rw [List.find?_eq_none]
    intro u hu
    simpa using h u hu
  rw [this]

theorem RefreshToken_valid (mac : Mac) (secret : String) (order : MapOrder) (store : Store)
    (now : Int) (clock : ClockReads) (raw : TokenString) (claims : MapClaims)
    (userID : String) (user : User)
    (hparse : Parse mac secret now raw = Except.ok claims)
    (hsub : claims.lookup "sub" = some (JSON.str userID))
    (htype : claims.lookup "type" = some (JSON.str "refresh"))
    (hfind : FindByID store userID = Except.ok user) :
    (RefreshToken mac secret order store now clock raw).calls
        = [Call.findByID userID, Call.generateTokens user.ID] ∧
      (RefreshToken mac secret order store now clock raw).result
        = respond mac secret order clock user := by
  simp [RefreshToken, hparse, hsub, htype, hfind, generateTokens_eq, respond_eq]

theorem Parse_refresh (mac : Mac) (secret : String) (issuedAt : ClockReads) (user : User)
    (now : Int) (hlo : -(2 ^ 53) < Unix (issuedAt.atRefreshExpiry + 7 * 24 * 3600 * Second))
    (hhi : Unix (issuedAt.atRefreshExpiry + 7 * 24 * 3600 * Second) < 2 ^ 53)
    (h : now < Unix (issuedAt.atRefreshExpiry + 7 * 24 * 3600 * Second) * Second) :
    Parse mac secret now
        (TokenString.encoded
          { alg := "HS256", claims := refreshClaims issuedAt user,
            signature := mac "HS256" secret (refreshClaims issuedAt user) })
      = Except.ok (refreshClaims issuedAt user) := by
  have hv : validateClaims (refreshClaims issuedAt user) now = Except.ok () :=
    validateClaims_of_exp _ now _ hlo hhi (by simp [refreshClaims, List.lookup])
      (by simp [refreshClaims, List.lookup]) h
  rw [Parse_signed, hv]


/-! ## Claims on refresh -/

/-- C13: in a store whose user ids are distinct, for every valid refresh token whose `sub`
names a stored user, `RefreshToken` looks that id up and answers with the summary and the tokens
computed from the record stored under it at refresh time: nothing else of the presented token
enters the result. When no stored user has that id the refresh fails. In particular, when the
record stored under the id of a user holds the role "admin" at refresh time, the refresh token
issued to that user earlier, whatever the roles then, yields an access token and a summary
that contain "admin". -/
theorem C13_refresh_uses_stored_user (mac : Mac) (secret : String) (order : MapOrder)
    (store : Store) (now : Int) (clock : ClockReads)
    (hkey : (store.users.map (fun u => u.ID)).Nodup) :
    (∀ (t : Token) (user : User),
      Parse mac secret now (TokenString.encoded t) = Except.ok t.claims →
      t.claims.lookup "sub" = some (JSON.str user.ID) →
      t.claims.lookup "type" = some (JSON.str "refresh") →
      user ∈ store.users →
      (RefreshToken mac secret order store now clock (TokenString.encoded t)).calls
        = [Call.findByID user.ID, Call.generateTokens user.ID] ∧
      (RefreshToken mac secret order store now clock (TokenString.encoded t)).result
        = Except.ok
            { User := userResponse order user,
              AccessToken := { alg := "HS256", claims := accessClaims clock user,
                               signature := mac "HS256" secret (accessClaims clock user) },
              RefreshToken := { alg := "HS256", claims := refreshClaims clock user,
                                signature := mac "HS256" secret (refreshClaims clock user) },
              ExpiresIn :=
                truncSeconds (clock.atAccessExpiry + 15 * 60 * Second - clock.atExpiresIn) }) ∧
    (∀ (t : Token) (userID : String),
      Parse mac secret now (TokenString.encoded t) = Except.ok t.claims →
      t.claims.lookup "sub" = some (JSON.str userID) →
      t.claims.lookup "type" = some (JSON.str "refresh") →
      (∀ u ∈ store.users, u.ID ≠ userID) →
      (RefreshToken mac secret order store now clock (TokenString.encoded t)).calls
        = [Call.findByID userID] ∧
      (RefreshToken mac secret order store now clock (TokenString.encoded t)).result
        = Except.error "record not found") ∧
    (∀ (issuedAt : ClockReads) (before after : User),
      -(2 ^ 53) < Unix (issuedAt.atRefreshExpiry + 7 * 24 * 3600 * Second) →
      Unix (issuedAt.atRefreshExpiry + 7 * 24 * 3600 * Second) < 2 ^ 53 →
      now < Unix (issuedAt.atRefreshExpiry + 7 * 24 * 3600 * Second) * Second →
      after ∈ store.users → after.ID = before.ID →
      (∃ r ∈ after.Roles, r.Name = "admin") →
      ∃ access refresh expiresIn w,
        generateTokens mac secret issuedAt before = Except.ok (access, refresh, expiresIn) ∧
        (RefreshToken mac secret order store now clock (TokenString.encoded refresh)).result
          = Except.ok w ∧
        "admin" ∈ stringsOf (w.AccessToken.claims.lookup "roles") ∧
        "admin" ∈ w.User.Roles) := by
  refine ⟨?_, ?_, ?_⟩
  · intro t user hparse hsub htype hmem
    have hfind := FindByID_of_mem store user hkey hmem
    have hres := RefreshToken_valid mac secret order store now clock _ _ user.ID user hparse
      hsub htype hfind
    exact ⟨hres.1, hres.2.trans (respond_eq _ _ _ _ _)⟩
  · intro t userID hparse hsub htype hnone
    have hfind := FindByID_of_not_mem store userID hnone
    simp [RefreshToken, hparse, hsub, htype, hfind]
  · intro issuedAt before after hlo hhi hnow hmem hid hadmin
    have hparse := Parse_refresh mac secret issuedAt before now hlo hhi hnow
    have hfind := FindByID_of_mem store after hkey hmem
    rw [hid] at hfind
    have hres := (RefreshToken_valid mac secret order store now clock _ _ before.ID after hparse
      (by simp [refreshClaims, List.lookup]) (by simp [refreshClaims, List.lookup]) hfind).2
    have hin : "admin" ∈ elems (finalRoles after) := by
      rw [finalRoles, mem_unique, mem_collect_fst]
      exact Or.inl hadmin
    refine ⟨_, _, _, _, generateTokens_eq mac secret issuedAt before,
      hres.trans (respond_eq _ _ _ _ _), ?_, ?_⟩
    · rw [accessClaims_roles, stringsOf_marshalStrings]
      exact hin
    · exact (mem_summary_roles order after "admin").2 hin

/-- C13 in a store of four users: at a hand-made valid refresh token for the third of them; at
the same token in a store that lacks that user; and at the session of the second, who held only
"user" when it was issued and holds "admin" at refresh time. -/
theorem C13_refresh_uses_stored_user_witness :
    ((promotedStore.users.map (fun u => u.ID)).Nodup ∧
      Parse toyMac "k" 1700000000000000100
          (TokenString.encoded (forgedToken "HS256" "refresh" 1700000900))
        = Except.ok (forgedToken "HS256" "refresh" 1700000900).claims ∧
      (forgedToken "HS256" "refresh" 1700000900).claims.lookup "sub"
        = some (JSON.str staffUser.ID) ∧
      (forgedToken "HS256" "refresh" 1700000900).claims.lookup "type"
        = some (JSON.str "refresh") ∧
      staffUser ∈ promotedStore.users ∧
      (RefreshToken toyMac "k" insertionOrder promotedStore 1700000000000000100 tenApart
          (TokenString.encoded (forgedToken "HS256" "refresh" 1700000900))).calls
        = [Call.findByID staffUser.ID, Call.generateTokens staffUser.ID] ∧
      (RefreshToken toyMac "k" insertionOrder promotedStore 1700000000000000100 tenApart
          (TokenString.encoded (forgedToken "HS256" "refresh" 1700000900))).result
        = Except.ok
            { User := userResponse insertionOrder staffUser,
              AccessToken := { alg := "HS256", claims := accessClaims tenApart staffUser,
                               signature := toyMac "HS256" "k" (accessClaims tenApart staffUser) },
              RefreshToken := { alg := "HS256", claims := refreshClaims tenApart staffUser,
                                signature :=
                                  toyMac "HS256" "k" (refreshClaims tenApart staffUser) },
              ExpiresIn := truncSeconds
                (tenApart.atAccessExpiry + 15 * 60 * Second - tenApart.atExpiresIn) }) ∧
    ((({ users := [bareUser, memberAfter] } : Store).users.map (fun u => u.ID)).Nodup ∧
      (∀ u ∈ ({ users := [bareUser, memberAfter] } : Store).users, u.ID ≠ "41c2") ∧
      (RefreshToken toyMac "k" insertionOrder { users := [bareUser, memberAfter] }
          1700000000000000100 tenApart
          (TokenString.encoded (forgedToken "HS256" "refresh" 1700000900))).calls
        = [Call.findByID "41c2"] ∧
      (RefreshToken toyMac "k" insertionOrder { users := [bareUser, memberAfter] }
          1700000000000000100 tenApart
          (TokenString.encoded (forgedToken "HS256" "refresh" 1700000900))).result
        = Except.error "record not found") ∧
    (-(2 ^ 53) < Unix (tenApart.atRefreshExpiry + 7 * 24 * 3600 * Second) ∧
      Unix (tenApart.atRefreshExpiry + 7 * 24 * 3600 * Second) < 2 ^ 53 ∧
      (1700000000000000100 : Int)
        < Unix (tenApart.atRefreshExpiry + 7 * 24 * 3600 * Second) * Second ∧
      memberAfter ∈ promotedStore.users ∧ memberAfter.ID = memberBefore.ID ∧
      (∃ r ∈ memberAfter.Roles, r.Name = "admin") ∧
      ∃ access refresh expiresIn w,
        generateTokens toyMac "k" tenApart memberBefore
          = Except.ok (access, refresh, expiresIn) ∧
        (RefreshToken toyMac "k" insertionOrder promotedStore 1700000000000000100 tenApart
          (TokenString.encoded refresh)).result = Except.ok w ∧
        "admin" ∈ stringsOf (w.AccessToken.claims.lookup "roles") ∧
        "admin" ∈ w.User.Roles) :=
  ⟨⟨by decide, rfl, rfl, rfl, by decide,
      (C13_refresh_uses_stored_user toyMac "k" insertionOrder promotedStore 1700000000000000100
        tenApart (by decide)).1 (forgedToken "HS256" "refresh" 1700000900) staffUser
        rfl rfl rfl (by decide)⟩,
    ⟨by decide, by decide,
      (C13_refresh_uses_stored_user toyMac "k" insertionOrder { users := [bareUser, memberAfter] }
        1700000000000000100 tenApart (by decide)).2.1
        (forgedToken "HS256" "refresh" 1700000900) "41c2" rfl rfl rfl (by decide)⟩,
    ⟨by decide, by decide, by decide, by decide, rfl, by decide,
      (C13_refresh_uses_stored_user toyMac "k" insertionOrder promotedStore
        1700000000000000100 tenApart (by decide)).2.2 tenApart memberBefore memberAfter
        (by decide) (by decide) (by decide) (by decide) rfl (by decide)⟩⟩


/-! ## Lemmas on the gates -/

theorem hasElement_iff (required : String) (xs : List String) :
    hasElement required xs = true ↔ required ∈ xs := by
  induction xs with
  | nil => simp [hasElement]
  | cons x xs ih =>
    unfold hasElement
    by_cases h : x = required
    · simp [h]
    · have h' : ¬ required = x := fun e => h e.symm
      simp [h, h', ih]

theorem assertStrings_some (xs : List JSON) (l : List String) (h : assertStrings xs = some l) :
    stringsOf (some (JSON.arr xs)) = l := by
  induction xs generalizing l with
  | nil =>
    simp [assertStrings] at h
    simp [stringsOf, h]
  | cons x xs ih =>
    cases x with
    | str s =>
      cases hr : assertStrings xs with
      | none => simp [assertStrings, hr] at h
      | some l' =>
        simp [assertStrings, hr] at h
        have := ih l' hr
        simp only [stringsOf] at this
        simp [stringsOf, ← h, this]
    | null => simp [assertStrings] at h
    | bool b => simp [assertStrings] at h
    | num q => simp [assertStrings] at h
    | arr ys => simp [assertStrings] at h
    | obj kvs => simp [assertStrings] at h

theorem extractList_some (v : Option JSON) (o : Option (List String))
    (h : extractList v = some o) : o.getD [] = stringsOf v := by
  unfold extractList at h
  split at h
  · rename_i xs
    split at h
    · rename_i l hl
      cases h
      simp [assertStrings_some xs l hl]
    · cases h
  · rename_i hv
    cases h
    cases v with
    | none => rfl
    | some j =>
      cases j with
      | arr xs => exact absurd rfl (hv xs)
      | null => rfl
      | bool b => rfl
      | num q => rfl
      | str s => rfl
      | obj kvs => rfl

theorem AuthMiddleware_next (mac : Mac) (secret : String) (now : Int)
    (authHeader : Option TokenString) (ctx : Context)
    (h : AuthMiddleware mac secret now authHeader = Outcome.next ctx) :
    ∃ t, authHeader = some (TokenString.encoded t) ∧
      Parse mac secret now (TokenString.encoded t) = Except.ok t.claims ∧
      ctx.roles.getD [] = stringsOf (t.claims.lookup "roles") ∧
      ctx.permissions.getD [] = stringsOf (t.claims.lookup "permissions") := by
  unfold AuthMiddleware at h
  split at h
  · cases h
  · rename_i raw
    split at h
    · cases h
    · rename_i claims hparse
      cases raw with
      | malformed => simp [Parse] at hparse
      | encoded t =>
        have hc := Parse_ok_claims mac secret now t claims hparse
        subst hc
        split at h
        · split at h
          · cases h
          · rename_i roles hroles
            split at h
            · cases h
            · rename_i permissions hperms
              cases h
              exact ⟨t, rfl, hparse, extractList_some _ _ hroles, extractList_some _ _ hperms⟩
        · cases h


theorem RoleMiddleware_strings (name : String) (l : List String) :
    RoleMiddleware name (some (GinValue.strings l))
      = if name ∈ l then GateOutcome.next
        else GateOutcome.abort 403 "Acesso negado: papel necessário não encontrado" := by
  by_cases h : name ∈ l
  · simp [RoleMiddleware, (hasElement_iff name l).2 h, h]
  · have hf : hasElement name l = false := by
      cases hb : hasElement name l with
      | false => rfl
      | true => exact absurd ((hasElement_iff name l).1 hb) h
    simp [RoleMiddleware, hf, h]

theorem PermissionMiddleware_strings (name : String) (l : List String) :
    PermissionMiddleware name (some (GinValue.strings l))
      = if name ∈ l then GateOutcome.next
        else GateOutcome.abort 403 "Acesso negado: permissão necessária não encontrada" := by
  by_cases h : name ∈ l
  · simp [PermissionMiddleware, (hasElement_iff name l).2 h, h]
  · have hf : hasElement name l = false := by
      cases hb : hasElement name l with
      | false => rfl
      | true => exact absurd ((hasElement_iff name l).1 hb) h
    simp [PermissionMiddleware, hf, h]

theorem AuthMiddleware_no_sub (mac : Mac) (secret : String) (now : Int) (t : Token)
    (hparse : Parse mac secret now (TokenString.encoded t) = Except.ok t.claims)
    (hsub : ∀ s, t.claims.lookup "sub" ≠ some (JSON.str s)) :
    AuthMiddleware mac secret now (some (TokenString.encoded t))
      = Outcome.abort 500 "ID de usuário inválido no token" := by
  cases hl : t.claims.lookup "sub" with
  | none => simp [AuthMiddleware, hparse, hl]
  | some v =>
    cases v with
    | str s => exact absurd hl (hsub s)
    | null => simp [AuthMiddleware, hparse, hl]
    | bool b => simp [AuthMiddleware, hparse, hl]
    | num q => simp [AuthMiddleware, hparse, hl]
    | arr xs => simp [AuthMiddleware, hparse, hl]
    | obj kvs => simp [AuthMiddleware, hparse, hl]

/-! ## Claims on the gates -/

/-- C14, as stated, fails: a context whose `roles` (or `permissions`) value is not a
`[]string` is answered 500, not 403. -/
theorem C14_other_type_is_500 :
    RoleMiddleware "admin" (some GinValue.other)
        = GateOutcome.abort 500 "Formato inválido para papéis" ∧
      PermissionMiddleware "users:read" (some GinValue.other)
        = GateOutcome.abort 500 "Formato inválido para permissões" := by
  decide

/-- C14, amended: `RoleMiddleware(name)` lets the request proceed exactly when the context
holds a `[]string` under `roles` that contains `name`; a list without `name` and a missing key
are answered 403, a value of another type is answered 500; the same holds for
`PermissionMiddleware(name)` and the key `permissions`. -/
theorem C14_gate_passes_iff_member (name : String) :
    (∀ stored, RoleMiddleware name stored = GateOutcome.next ↔
      ∃ l, stored = some (GinValue.strings l) ∧ name ∈ l) ∧
    (∀ l, RoleMiddleware name (some (GinValue.strings l))
      = if name ∈ l then GateOutcome.next
        else GateOutcome.abort 403 "Acesso negado: papel necessário não encontrado") ∧
    RoleMiddleware name none = GateOutcome.abort 403 "Informações de papel não encontradas" ∧
    RoleMiddleware name (some GinValue.other)
      = GateOutcome.abort 500 "Formato inválido para papéis" ∧
    (∀ stored, PermissionMiddleware name stored = GateOutcome.next ↔
      ∃ l, stored = some (GinValue.strings l) ∧ name ∈ l) ∧
    (∀ l, PermissionMiddleware name (some (GinValue.strings l))
      = if name ∈ l then GateOutcome.next
        else GateOutcome.abort 403 "Acesso negado: permissão necessária não encontrada") ∧
    PermissionMiddleware name none
      = GateOutcome.abort 403 "Informações de permissão não encontradas" ∧
    PermissionMiddleware name (some GinValue.other)
      = GateOutcome.abort 500 "Formato inválido para permissões" := by
  have hrole := RoleMiddleware_strings name
  have hperm := PermissionMiddleware_strings name
  refine ⟨?_, hrole, rfl, rfl, ?_, hperm, rfl, rfl⟩
  · intro stored
    cases stored with
    | none => simp [RoleMiddleware]
    | some v =>
      cases v with
      | other => simp [RoleMiddleware]
      | strings l =>
        rw [hrole l]
        by_cases h : name ∈ l <;> simp [h]
  · intro stored
    cases stored with
    | none => simp [PermissionMiddleware]
    | some v =>
      cases v with
      | other => simp [PermissionMiddleware]
      | strings l =>
        rw [hperm l]
        by_cases h : name ∈ l <;> simp [h]

/-- C15, as stated, fails: a correctly signed, unexpired token without a `sub` claim is
neither answered 401 nor, though its roles are examined by no gate, 403: `AuthMiddleware`
answers 500. -/
theorem C15_no_sub_is_500 :
    (Parse toyMac "k" 1700000000000000100 (TokenString.encoded tokenWithoutSub)).toBool = true ∧
    adminRoute toyMac "k" 1700000000000000100 (some (TokenString.encoded tokenWithoutSub))
      = { roleGateEvaluated := false, handlerRan := false, status := some 500 } := by
  decide

/-- C15, amended: on the admin routes the handler runs only if the bearer token validated and
its role list contains "admin"; an absent header or a token that `jwt.Parse` rejects is
answered 401 with the role gate not evaluated; a token that `jwt.Parse` accepts but whose
`sub` is not a string is answered 500, again without the role gate; a request that passed
`AuthMiddleware` with a role list lacking "admin" is answered 403 by the role gate and the
handler does not run. -/
theorem C15_gates_in_order (mac : Mac) (secret : String) (now : Int) :
    (∀ authHeader, (adminRoute mac secret now authHeader).handlerRan = true →
      ∃ t ctx, authHeader = some (TokenString.encoded t) ∧
        Parse mac secret now (TokenString.encoded t) = Except.ok t.claims ∧
        AuthMiddleware mac secret now authHeader = Outcome.next ctx ∧
        "admin" ∈ stringsOf (t.claims.lookup "roles")) ∧
    adminRoute mac secret now none
      = { roleGateEvaluated := false, handlerRan := false, status := some 401 } ∧
    (∀ raw err, Parse mac secret now raw = Except.error err →
      adminRoute mac secret now (some raw)
        = { roleGateEvaluated := false, handlerRan := false, status := some 401 }) ∧
    (∀ authHeader ctx, AuthMiddleware mac secret now authHeader = Outcome.next ctx →
      "admin" ∉ ctx.roles.getD [] →
      adminRoute mac secret now authHeader
        = { roleGateEvaluated := true, handlerRan := false, status := some 403 }) ∧
    (∀ t, Parse mac secret now (TokenString.encoded t) = Except.ok t.claims →
      (∀ s, t.claims.lookup "sub" ≠ some (JSON.str s)) →
      adminRoute mac secret now (some (TokenString.encoded t))
        = { roleGateEvaluated := false, handlerRan := false, status := some 500 }) := by
  refine ⟨?_, rfl, ?_, ?_, ?_⟩
  · intro authHeader hran
    cases hauth : AuthMiddleware mac secret now authHeader with
    | abort status msg => simp [adminRoute, hauth] at hran
    | panic => simp [adminRoute, hauth] at hran
    | next ctx =>
      obtain ⟨t, hh, hparse, hroles, -⟩ := AuthMiddleware_next mac secret now authHeader ctx hauth
      refine ⟨t, ctx, hh, hparse, rfl, ?_⟩
      rw [← hroles]
      cases hr : ctx.roles with
      | none => simp [adminRoute, hauth, hr, RoleMiddleware] at hran
      | some l =>
        have hgate := RoleMiddleware_strings "admin" l
        by_cases hmem : "admin" ∈ l
        · simpa using hmem
        · rw [if_neg hmem] at hgate
          simp [adminRoute, hauth, hr, hgate] at hran
  · intro raw err herr
    simp [adminRoute, AuthMiddleware_of_Parse_error mac secret now raw err herr]
  · intro authHeader ctx hauth hno
    cases hr : ctx.roles with
    | none => simp [adminRoute, hauth, hr, RoleMiddleware]
    | some l =>
      have hmem : "admin" ∉ l := by simpa [hr] using hno
      have hgate := RoleMiddleware_strings "admin" l
      rw [if_neg hmem] at hgate
      simp [adminRoute, hauth, hr, hgate]
  · intro t hparse hsub
    simp [adminRoute, AuthMiddleware_no_sub mac secret now t hparse hsub]

/-- C15, amended, at a token with the role list ["admin"], at a token declaring "none", at a
token with the role list ["user"], and at a token without `sub`. -/
theorem C15_gates_in_order_witness :
    ((adminRoute toyMac "k" 1700000000000000100
        (some (TokenString.encoded
          (tokenWithRoles (JSON.arr [JSON.str "admin"]))))).handlerRan = true ∧
      ∃ t ctx,
        some (TokenString.encoded (tokenWithRoles (JSON.arr [JSON.str "admin"])))
          = some (TokenString.encoded t) ∧
        Parse toyMac "k" 1700000000000000100 (TokenString.encoded t) = Except.ok t.claims ∧
        AuthMiddleware toyMac "k" 1700000000000000100
            (some (TokenString.encoded (tokenWithRoles (JSON.arr [JSON.str "admin"]))))
          = Outcome.next ctx ∧
        "admin" ∈ stringsOf (t.claims.lookup "roles")) ∧
    (Parse toyMac "k" 1700000000000000100
          (TokenString.encoded (forgedToken "none" "access" 1700000900))
        = Except.error "método de assinatura inválido" ∧
      adminRoute toyMac "k" 1700000000000000100
          (some (TokenString.encoded (forgedToken "none" "access" 1700000900)))
        = { roleGateEvaluated := false, handlerRan := false, status := some 401 }) ∧
    (AuthMiddleware toyMac "k" 1700000000000000100
          (some (TokenString.encoded (tokenWithRoles (JSON.arr [JSON.str "user"]))))
        = Outcome.next { userID := some "41c2", roles := some ["user"], permissions := none } ∧
      "admin" ∉ (some ["user"] : Option (List String)).getD [] ∧
      adminRoute toyMac "k" 1700000000000000100
          (some (TokenString.encoded (tokenWithRoles (JSON.arr [JSON.str "user"]))))
        = { roleGateEvaluated := true, handlerRan := false, status := some 403 }) ∧
    (Parse toyMac "k" 1700000000000000100 (TokenString.encoded tokenWithoutSub)
        = Except.ok tokenWithoutSub.claims ∧
      (∀ s, tokenWithoutSub.claims.lookup "sub" ≠ some (JSON.str s)) ∧
      adminRoute toyMac "k" 1700000000000000100 (some (TokenString.encoded tokenWithoutSub))
        = { roleGateEvaluated := false, handlerRan := false, status := some 500 }) :=
  ⟨⟨by decide,
      (C15_gates_in_order toyMac "k" 1700000000000000100).1 _ (by decide)⟩,
    ⟨rfl, (C15_gates_in_order toyMac "k" 1700000000000000100).2.2.1 _ _ rfl⟩,
    ⟨by decide, by decide,
      (C15_gates_in_order toyMac "k" 1700000000000000100).2.2.2.1 _
        { userID := some "41c2", roles := some ["user"], permissions := none }
        (by decide) (by decide)⟩,
    ⟨rfl, by simp [tokenWithoutSub, List.lookup],
      (C15_gates_in_order toyMac "k" 1700000000000000100).2.2.2.2 tokenWithoutSub rfl
        (by simp [tokenWithoutSub, List.lookup])⟩⟩

/-- C16 fails on the code: for a correctly signed, unexpired token whose `roles` claim is an
array holding a number, the unchecked assertion `role.(string)` of `AuthMiddleware` panics;
on the admin routes the recovery middleware then answers 500. -/
theorem C16_non_string_role_panics :
    AuthMiddleware toyMac "k" 1700000000000000100
        (some (TokenString.encoded (tokenWithRoles (JSON.arr [JSON.str "user", JSON.num 7]))))
      = Outcome.panic ∧
    adminRoute toyMac "k" 1700000000000000100
        (some (TokenString.encoded (tokenWithRoles (JSON.arr [JSON.str "user", JSON.num 7]))))
      = { roleGateEvaluated := false, handlerRan := false, status := some 500 } := by
  decide


/-! ## Lemmas on the returned summary and token -/

theorem respond_matches (mac : Mac) (secret : String) (order : MapOrder) (clock : ClockReads)
    (user : User) (w : UserWithToken) (h : respond mac secret order clock user = Except.ok w) :
    (∀ n, n ∈ w.User.Roles ↔ n ∈ stringsOf (w.AccessToken.claims.lookup "roles")) ∧
    (∀ p, p ∈ w.User.Permissions ↔
      p ∈ stringsOf (w.AccessToken.claims.lookup "permissions")) ∧
    w.User.Roles.Nodup ∧ w.User.Permissions.Nodup := by
  rw [respond_eq] at h
  cases h
  refine ⟨?_, ?_, (nodup_summary order user).1, (nodup_summary order user).2⟩
  · intro n
    rw [accessClaims_roles, stringsOf_marshalStrings]
    exact mem_summary_roles order user n
  · intro p
    rw [accessClaims_permissions, stringsOf_marshalStrings]
    exact mem_summary_permissions order user p

theorem ProcessGoogleCallback_ok (mac : Mac) (secret : String) (order : MapOrder)
    (faults : Faults) (newID : String) (clock : ClockReads) (store : Store)
    (federation : Except String GoogleUserInfo) (w : UserWithToken)
    (h : (ProcessGoogleCallback mac secret order faults newID clock store federation).result
      = Except.ok w) :
    ∃ user, respond mac secret order clock user = Except.ok w := by
  unfold ProcessGoogleCallback at h
  split at h
  · cases h
  · split at h
    · cases h
    · split at h
      · cases h
      · split at h
        · simp only at h
          split at h
          · cases h
          · exact ⟨_, h⟩
        · simp only at h
          split at h
          · cases h
          · exact ⟨_, h⟩

theorem RefreshToken_ok (mac : Mac) (secret : String) (order : MapOrder) (store : Store)
    (now : Int) (clock : ClockReads) (raw : TokenString) (w : UserWithToken)
    (h : (RefreshToken mac secret order store now clock raw).result = Except.ok w) :
    ∃ user, respond mac secret order clock user = Except.ok w := by
  unfold RefreshToken at h
  split at h
  · cases h
  · split at h
    · split at h
      · split at h
        · cases h
        · split at h
          · cases h
          · rename_i user hfind
            refine ⟨user, ?_⟩
            rw [generateTokens_eq] at h
            rw [respond_eq]
            exact h
      · cases h
    · cases h


/-! ## Claims on login: group roles, the first-user rule under a failing listing, the summary -/

/-- C17 fails on the code: `FindByGoogleID` does not load the roles of the groups, so at the
login of `staffUser`, who holds "user" directly and "admin" through the group "staff", the
access token and the summary carry only "user" and its permission, while `RefreshToken` on the
store that the login leaves resolves "user" and "admin" with all their permissions. -/
theorem C17_login_misses_group_roles :
    grants (ProcessGoogleCallback toyMac "k" insertionOrder noFaults "id-9" tenApart
        sampleStore (Except.ok (profileOf "g-2"))).result
      = ((["user"], ["profile:read"]), (["user"], ["profile:read"])) ∧
    grants (RefreshToken toyMac "k" insertionOrder
        (ProcessGoogleCallback toyMac "k" insertionOrder noFaults "id-9" tenApart
          sampleStore (Except.ok (profileOf "g-2"))).store
        1700000000000000100 tenApart
        (TokenString.encoded (forgedToken "HS256" "refresh" 1700000900))).result
      = ((["user", "admin"],
          ["profile:read", "users:read", "users:write", "groups:read", "groups:write",
            "roles:read", "roles:write"]),
         (["user", "admin"],
          ["profile:read", "users:read", "users:write", "groups:read", "groups:write",
            "roles:read", "roles:write"])) := by
  decide

/-- C18 fails on the code: the error of `ListAll` is discarded, so when the listing fails the
first login of an unseen subject into a store that already holds two users succeeds and
creates the new user with the role "admin". -/
theorem C18_admin_when_listing_fails :
    sampleStore.users.length = 2 ∧
    (ProcessGoogleCallback toyMac "k" insertionOrder listingFails "id-9" tenApart sampleStore
        (Except.ok (profileOf "g-new"))).store.users.map
        (fun u => (u.GoogleID, u.Roles.map (fun r => r.Name)))
      = [("g-1", []), ("g-2", ["user"]), ("g-new", ["admin"])] ∧
    (grants (ProcessGoogleCallback toyMac "k" insertionOrder listingFails "id-9" tenApart
        sampleStore (Except.ok (profileOf "g-new"))).result).1.1 = ["admin"] := by
  decide

/-- C19: in every successful response of `ProcessGoogleCallback` and of `RefreshToken`, the
role names and the permissions of the user summary are, as sets, those embedded in the access
token of the same response, and neither summary list has a duplicate. -/
theorem C19_summary_matches_token (mac : Mac) (secret : String) (order : MapOrder) :
    (∀ (faults : Faults) (newID : String) (clock : ClockReads) (store : Store)
        (federation : Except String GoogleUserInfo) (w : UserWithToken),
      (ProcessGoogleCallback mac secret order faults newID clock store federation).result
        = Except.ok w →
      (∀ n, n ∈ w.User.Roles ↔ n ∈ stringsOf (w.AccessToken.claims.lookup "roles")) ∧
      (∀ p, p ∈ w.User.Permissions ↔
        p ∈ stringsOf (w.AccessToken.claims.lookup "permissions")) ∧
      w.User.Roles.Nodup ∧ w.User.Permissions.Nodup) ∧
    (∀ (store : Store) (now : Int) (clock : ClockReads) (raw : TokenString)
        (w : UserWithToken),
      (RefreshToken mac secret order store now clock raw).result = Except.ok w →
      (∀ n, n ∈ w.User.Roles ↔ n ∈ stringsOf (w.AccessToken.claims.lookup "roles")) ∧
      (∀ p, p ∈ w.User.Permissions ↔
        p ∈ stringsOf (w.AccessToken.claims.lookup "permissions")) ∧
      w.User.Roles.Nodup ∧ w.User.Permissions.Nodup) := by
  refine ⟨?_, ?_⟩
  · intro faults newID clock store federation w h
    obtain ⟨user, hu⟩ :=
      ProcessGoogleCallback_ok mac secret order faults newID clock store federation w h
    exact respond_matches mac secret order clock user w hu
  · intro store now clock raw w h
    obtain ⟨user, hu⟩ := RefreshToken_ok mac secret order store now clock raw w h
    exact respond_matches mac secret order clock user w hu

/-- C19 at the login of the stored user `staffUser` and at a refresh for the same user. -/
theorem C19_summary_matches_token_witness :
    (∃ w,
      (ProcessGoogleCallback toyMac "k" insertionOrder noFaults "id-9" tenApart sampleStore
        (Except.ok (profileOf "g-2"))).result = Except.ok w ∧
      (∀ n, n ∈ w.User.Roles ↔ n ∈ stringsOf (w.AccessToken.claims.lookup "roles")) ∧
      (∀ p, p ∈ w.User.Permissions ↔
        p ∈ stringsOf (w.AccessToken.claims.lookup "permissions")) ∧
      w.User.Roles.Nodup ∧ w.User.Permissions.Nodup) ∧
    (∃ w,
      (RefreshToken toyMac "k" insertionOrder sampleStore 1700000000000000100 tenApart
        (TokenString.encoded (forgedToken "HS256" "refresh" 1700000900))).result
        = Except.ok w ∧
      (∀ n, n ∈ w.User.Roles ↔ n ∈ stringsOf (w.AccessToken.claims.lookup "roles")) ∧
      (∀ p, p ∈ w.User.Permissions ↔
        p ∈ stringsOf (w.AccessToken.claims.lookup "permissions")) ∧
      w.User.Roles.Nodup ∧ w.User.Permissions.Nodup) :=
  ⟨⟨_, rfl, (C19_summary_matches_token toyMac "k" insertionOrder).1 noFaults "id-9" tenApart
      sampleStore (Except.ok (profileOf "g-2")) _ rfl⟩,
    ⟨_, rfl, (C19_summary_matches_token toyMac "k" insertionOrder).2 sampleStore
      1700000000000000100 tenApart
      (TokenString.encoded (forgedToken "HS256" "refresh" 1700000900)) _ rfl⟩⟩

end GoGoogle
